import Mathlib

/-!
# WAVM runtime core: globals, contexts and object typing

A shallow embedding of `Source/Runtime/Runtime.cpp`.  C++ objects become
structures, the compartment's mutable state is passed explicitly, and the
ways a call can end without returning (a failed `assert`, `errorUnless`,
a null pointer dereference, an access past the end of an array) are
constructors of `Outcome`.

Headers such as `RuntimePrivate.h` and `IR/Types.h` are not part of the
sources at hand.  The constants they declare (`maxGlobalBytes`,
`getTypeByteWidth`) are parameters of the functions that use them.
-/

namespace Runtime

/-! ## Machine integers -/

/-- Truncation of a natural number to an unsigned 32-bit integer (`U32`). -/
def u32 (n : Nat) : Nat := n % 2 ^ 32

/-- `U32` addition, wrapping around at `2^32`. -/
def add32 (a b : Nat) : Nat := (a + b) % 2 ^ 32

/-- `U32` subtraction, wrapping around at `2^32`. -/
def sub32 (a b : Nat) : Nat := (a + (2 ^ 32 - b % 2 ^ 32)) % 2 ^ 32

/-- `U32` bitwise complement `~a`. -/
def not32 (a : Nat) : Nat := 2 ^ 32 - 1 - a % 2 ^ 32

/-- `U32` bitwise conjunction `a & b`. -/
def and32 (a b : Nat) : Nat := a &&& b

/-! ## Values and types -/

/-- The value types of the IR (`IR::ValueType`). -/
inductive ValueType
  | none | any | i32 | i64 | f32 | f64 | v128 | funcref | anyref | nullref
  deriving DecidableEq, Repr

/-- Modelled from the spec: `sizeof(UntaggedValue)`; the union is declared in
`Runtime.h`, which is not among the sources, and the spec describes it as a
"128-bit-capable union big enough for any storage form". -/
def untaggedValueBytes : Nat := 16

/-- The untagged value union, seen as its raw bytes (`UntaggedValue::bytes`). -/
@[ext] structure UntaggedValue where
  bytes : Fin untaggedValueBytes → UInt8

/-- A value with its type tag (`Runtime::Value`): the untagged union, which
is the base sub-object, followed by the tag. -/
@[ext] structure Value where
  type : ValueType
  payload : UntaggedValue

/-- The type of a global (`IR::GlobalType`). -/
structure GlobalType where
  valueType : ValueType
  isMutable : Bool
  deriving DecidableEq, Repr

/-! ## Byte-addressed storage -/

/-- A byte buffer addressed by offset from its base pointer. -/
abbrev Memory := Nat → UInt8

/-- The C library call `memcpy(dst + dstOffset, src, numBytes)`: the result is
the destination buffer after the copy. -/
def memcpy (dst : Memory) (dstOffset : Nat) (src : Memory) (numBytes : Nat) : Memory :=
  fun a => if dstOffset ≤ a ∧ a < dstOffset + numBytes then src (a - dstOffset) else dst a

/-- The bytes of an untagged value as a source buffer (`&value`). -/
def UntaggedValue.toMemory (v : UntaggedValue) : Memory :=
  fun a => if h : a < untaggedValueBytes then v.bytes ⟨a, h⟩ else 0

/-- The load `*(UntaggedValue*)(base + offset)`: all bytes of the union are read. -/
def loadUntaggedValue (base : Memory) (offset : Nat) : UntaggedValue :=
  ⟨fun i => base (offset + i.val)⟩

/-- The store `*(UntaggedValue*)(base + offset) = value`: all bytes of the
union are written. -/
def storeUntaggedValue (base : Memory) (offset : Nat) (value : UntaggedValue) : Memory :=
  memcpy base offset value.toMemory untaggedValueBytes

/-! ## Compartments and contexts -/

/-- The per-context page (`ContextRuntimeData`). -/
structure ContextRuntimeData where
  thunkArgAndReturnData : Memory
  globalData : Memory

/-- A context object.  Its `runtimeData` pointer is
`&compartment->runtimeData->contexts[id]`, so it is determined by `id`. -/
structure Context where
  id : Nat
  deriving DecidableEq, Repr

/-- The mutable state of a compartment.  `contexts` is the vector of
`Context*` (`none` is `nullptr`); `runtimeData i` is
`runtimeData->contexts[i]`. -/
structure Compartment where
  numGlobalBytes : Nat
  initialContextGlobalData : Memory
  contexts : List (Option Context)
  runtimeData : Nat → ContextRuntimeData

/-- A global object (`GlobalInstance`), with the fields its constructor stores. -/
structure GlobalInstance where
  type : GlobalType
  mutableDataOffset : Nat
  immutableValue : UntaggedValue

/-- How a call ends: it returns a result, or it does not return because an
`assert` failed, `errorUnless` aborted, a null pointer was dereferenced, or a
load or store ran past the end of the array it addresses (`outOfBounds`: the
behaviour of the C++ program is then undefined, and the access reaches what
lies after the array or faults). -/
inductive Outcome (α : Type)
  | ok (a : α)
  | assertFailed
  | fatalError
  | nullDereference
  | outOfBounds

/-- Replace the page of context `id`. -/
def setRuntimeData (runtimeData : Nat → ContextRuntimeData) (id : Nat)
    (page : ContextRuntimeData) : Nat → ContextRuntimeData :=
  fun i => if i = id then page else runtimeData i

/-- The loop `for(Context* context : compartment->contexts)` of `createGlobal`:
copies `numBytes` bytes of the value to `dataOffset` in every context's global
data.  A null slot is dereferenced like any other, which ends the call. -/
def initContextGlobals (dataOffset numBytes : Nat) (value : Memory) :
    List (Option Context) → (Nat → ContextRuntimeData) → Option (Nat → ContextRuntimeData)
  | [], runtimeData => some runtimeData
  | none :: _, _ => none
  | some context :: rest, runtimeData =>
    initContextGlobals dataOffset numBytes value rest
      (setRuntimeData runtimeData context.id
        { runtimeData context.id with
          globalData := memcpy (runtimeData context.id).globalData dataOffset value numBytes })

/-- The naturally aligned offset `(numGlobalBytes + numBytes - 1) & ~(numBytes - 1)`. -/
def alignedDataOffset (numGlobalBytes numBytes : Nat) : Nat :=
  and32 (sub32 (add32 numGlobalBytes numBytes) 1) (not32 (sub32 numBytes 1))

/-- The function `createGlobal(compartment, type, initialValue)`.  The result
is the compartment after the call and the returned pointer (`none` is
`nullptr`). -/
def createGlobal (maxGlobalBytes : Nat) (getTypeByteWidth : ValueType → Nat)
    (compartment : Option Compartment) (type : GlobalType) (initialValue : Value) :
    Outcome (Option Compartment × Option GlobalInstance) :=
  if initialValue.type ≠ type.valueType then .assertFailed
  else
    match type.isMutable, compartment with
    | true, none => .fatalError
    | true, some C =>
      let numBytes := u32 (getTypeByteWidth type.valueType)
      let dataOffset := alignedDataOffset C.numGlobalBytes numBytes
      if add32 dataOffset numBytes ≥ maxGlobalBytes then .ok (some C, none)
      else
        match initContextGlobals dataOffset numBytes initialValue.payload.toMemory
            C.contexts C.runtimeData with
        | none => .nullDereference
        | some runtimeData =>
          .ok (some
              { numGlobalBytes := add32 dataOffset numBytes
                initialContextGlobalData :=
                  memcpy C.initialContextGlobalData dataOffset
                    initialValue.payload.toMemory numBytes
                contexts := C.contexts
                runtimeData := runtimeData },
            some ⟨type, dataOffset, initialValue.payload⟩)
    | false, _ => .ok (compartment, some ⟨type, u32 (2 ^ 32 - 1), initialValue.payload⟩)

/-- The function `getGlobalValue(context, global)`.  `C` is the state of the
compartment that owns the context's page.  The array `globalData` of the page
has `maxGlobalBytes` bytes; the load of a mutable global reads the whole value
union at the global's offset, and it stays inside the array only when the
union ends at or before the end of the array. -/
def getGlobalValue (maxGlobalBytes : Nat) (C : Compartment) (context : Option Context)
    (global : GlobalInstance) : Outcome Value :=
  match global.type.isMutable, context with
  | true, none => .assertFailed
  | true, some ctx =>
    if maxGlobalBytes < global.mutableDataOffset + untaggedValueBytes then .outOfBounds
    else
      .ok ⟨global.type.valueType,
        loadUntaggedValue (C.runtimeData ctx.id).globalData global.mutableDataOffset⟩
  | false, _ => .ok ⟨global.type.valueType, global.immutableValue⟩

/-- The function `setGlobalValue(context, global, newValue)`: the previous
value and the compartment after the store.  The load of the previous value and
the store of the new one access the whole value union at the global's offset
in the array `globalData` of `maxGlobalBytes` bytes. -/
def setGlobalValue (maxGlobalBytes : Nat) (C : Compartment) (context : Option Context)
    (global : GlobalInstance) (newValue : Value) : Outcome (Value × Compartment) :=
  match context with
  | none => .assertFailed
  | some ctx =>
    if newValue.type ≠ global.type.valueType then .assertFailed
    else if global.type.isMutable = false then .assertFailed
    else if maxGlobalBytes < global.mutableDataOffset + untaggedValueBytes then .outOfBounds
    else
      .ok (⟨global.type.valueType,
          loadUntaggedValue (C.runtimeData ctx.id).globalData global.mutableDataOffset⟩,
        { C with
          runtimeData := setRuntimeData C.runtimeData ctx.id
            { C.runtimeData ctx.id with
              globalData := storeUntaggedValue (C.runtimeData ctx.id).globalData
                global.mutableDataOffset newValue.payload } })

/-- The function `createContext(compartment)`.  `commit` is what
`Platform::commitVirtualPages` yields for the context's page: `none` when it
fails, else the contents of the committed page. -/
def createContext (C : Compartment) (commit : Option ContextRuntimeData) :
    Outcome (Context × Compartment) :=
  match commit with
  | none => .fatalError
  | some page =>
    .ok (⟨C.contexts.length⟩,
      { C with
        contexts := C.contexts ++ [some ⟨C.contexts.length⟩]
        runtimeData := setRuntimeData C.runtimeData C.contexts.length
          { page with
            globalData := memcpy page.globalData 0 C.initialContextGlobalData
              C.numGlobalBytes } })

/-- The method `Context::finalize()`: `compartment->contexts[id] = nullptr`. -/
def Context.finalize (context : Context) (C : Compartment) : Compartment :=
  { C with contexts := C.contexts.set context.id none }

/-- The function `cloneContext(context)`; `C` is the state of
`context->compartment`. -/
def cloneContext (C : Compartment) (context : Context) (commit : Option ContextRuntimeData) :
    Outcome (Context × Compartment) :=
  match createContext C commit with
  | .ok (clonedContext, D) =>
    .ok (clonedContext,
      { D with
        runtimeData := setRuntimeData D.runtimeData clonedContext.id
          { D.runtimeData clonedContext.id with
            globalData := memcpy (D.runtimeData clonedContext.id).globalData 0
              (D.runtimeData context.id).globalData D.numGlobalBytes } })
  | .assertFailed => .assertFailed
  | .fatalError => .fatalError
  | .nullDereference => .nullDereference
  | .outOfBounds => .outOfBounds

/-- Two values are the same value of a type that is `width` bytes wide: the
tags agree and so do the first `width` bytes of the payload. -/
def Value.sameOnWidth (width : Nat) (a b : Value) : Prop :=
  a.type = b.type ∧ ∀ i : Fin untaggedValueBytes, i.val < width → a.payload.bytes i = b.payload.bytes i

/-- One operation on the context vector of a compartment: a successful
`createContext`, a successful `cloneContext`, or the `finalize` of a context
of this compartment. -/
inductive ContextStep : Compartment → Compartment → Prop
  | create (C D : Compartment) (page : ContextRuntimeData) (ctx : Context) :
      createContext C (some page) = .ok (ctx, D) → ContextStep C D
  | clone (C D : Compartment) (source : Context) (page : ContextRuntimeData) (ctx : Context) :
      cloneContext C source (some page) = .ok (ctx, D) → ContextStep C D
  | finalize (C : Compartment) (ctx : Context) :
      ctx.id < C.contexts.length → ContextStep C (ctx.finalize C)

/-- Compartment states reached from `C` by context operations. -/
def ContextSteps (C D : Compartment) : Prop := Relation.ReflTransGen ContextStep C D

/-- Every occupied slot holds a context whose id is the slot's index. -/
def SlotsMatchIds (contexts : List (Option Context)) : Prop :=
  ∀ (i : Nat) (c : Context), contexts[i]? = some (some c) → c.id = i

/-! ## Objects and their types -/

/-- The type of a function (`IR::FunctionType`). -/
structure FunctionType where
  ret : ValueType
  parameters : List ValueType
  deriving DecidableEq, Repr

/-- The element kind of a table. -/
inductive TableElementType
  | anyfunc
  deriving DecidableEq, Repr

/-- The type of a table: element kind, minimum and optional maximum. -/
structure TableType where
  elementType : TableElementType
  min : Nat
  max : Option Nat
  deriving DecidableEq, Repr

/-- The type of a memory: minimum and optional maximum number of pages. -/
structure MemoryType where
  min : Nat
  max : Option Nat
  deriving DecidableEq, Repr

/-- The type of an object (`IR::ObjectType`), tagged by its kind. -/
inductive ObjectType
  | function (type : FunctionType)
  | table (type : TableType)
  | memory (type : MemoryType)
  | global (type : GlobalType)
  | exceptionType (type : List ValueType)
  deriving DecidableEq, Repr

/-- The kinds of runtime object (`Runtime::ObjectKind`). -/
inductive ObjectKind
  | function | table | memory | global | exceptionType | moduleInstance | context | compartment
  deriving DecidableEq, Repr

/-- The kind of an object type, converted as in `Runtime::ObjectKind(type.kind)`. -/
def ObjectType.kind : ObjectType → ObjectKind
  | .function _ => .function
  | .table _ => .table
  | .memory _ => .memory
  | .global _ => .global
  | .exceptionType _ => .exceptionType

/-- A function object, with the field `isA` reads. -/
structure FunctionInstance where
  type : FunctionType

/-- A table object, with the field `isA` reads. -/
structure TableInstance where
  type : TableType

/-- A memory object, with the field `isA` reads. -/
structure MemoryInstance where
  type : MemoryType

/-- An exception type object, with the field `isA` reads. -/
structure ExceptionTypeInstance where
  parameters : List ValueType

/-- A runtime object, by kind. -/
inductive Object
  | function (f : FunctionInstance)
  | table (t : TableInstance)
  | memory (m : MemoryInstance)
  | global (g : GlobalInstance)
  | exceptionType (e : ExceptionTypeInstance)
  | moduleInstance
  | context
  | compartment

/-- The kind tag of an object (`object->kind`). -/
def Object.kind : Object → ObjectKind
  | .function _ => .function
  | .table _ => .table
  | .memory _ => .memory
  | .global _ => .global
  | .exceptionType _ => .exceptionType
  | .moduleInstance => .moduleInstance
  | .context => .context
  | .compartment => .compartment

/-- Modelled from the spec: the comparison of two optional maxima in `isSubset`
(declared in `IR/Types.h`, not among the sources), where an absent maximum
counts as infinity: is the maximum `sub` at most the maximum `super`? -/
def maxWithin (sub super : Option Nat) : Bool :=
  match sub, super with
  | _, none => true
  | none, some _ => false
  | some a, some b => decide (a ≤ b)

/-- Modelled from the spec: `isSubset(super, sub)` on table types (declared in
`IR/Types.h`, not among the sources): "an object satisfies a requested type iff
its minimum ≥ requested min and its maximum (∞ if absent) ≤ requested max". -/
def TableType.isSubset (super sub : TableType) : Bool :=
  decide (sub.min ≥ super.min) && maxWithin sub.max super.max

/-- Modelled from the spec: `isSubset(super, sub)` on memory types (declared in
`IR/Types.h`, not among the sources), with the same rule as for tables. -/
def MemoryType.isSubset (super sub : MemoryType) : Bool :=
  decide (sub.min ≥ super.min) && maxWithin sub.max super.max

/-- The function `isA(object, type)`.  After the kind check the `switch` on
`type.kind` downcasts the object to the same kind, so the last case is not
reached. -/
def isA (object : Object) (type : ObjectType) : Bool :=
  if type.kind ≠ object.kind then false
  else
    match type, object with
    | .function t, .function f => decide (t = f.type)
    | .global t, .global g => decide (t = g.type)
    | .table t, .table tbl => TableType.isSubset t tbl.type
    | .memory t, .memory m => MemoryType.isSubset t m.type
    | .exceptionType t, .exceptionType e => decide (t = e.parameters)
    | _, _ => false

/-- An optional maximum as an extended natural number: infinity if absent. -/
def maxOrInfinity : Option Nat → ℕ∞
  | none => ⊤
  | some n => (n : ℕ∞)

/-- The typing rule in the words of the specification: the object's kind is the
requested kind; function, global and exception types must be equal; for tables
and memories the object's minimum is at least the requested minimum and the
object's maximum, infinity if absent, is at most the requested maximum. -/
def satisfiesType (object : Object) (type : ObjectType) : Prop :=
  object.kind = type.kind ∧
  match object, type with
  | .function f, .function t => f.type = t
  | .global g, .global t => g.type = t
  | .exceptionType e, .exceptionType t => e.parameters = t
  | .table tbl, .table t =>
    tbl.type.min ≥ t.min ∧ maxOrInfinity tbl.type.max ≤ maxOrInfinity t.max
  | .memory m, .memory t =>
    m.type.min ≥ t.min ∧ maxOrInfinity m.type.max ≤ maxOrInfinity t.max
  | _, _ => True

/-! ## Concrete inputs -/

/-- Modelled from the spec: the byte widths of the value types, which
`getTypeByteWidth` (declared in `IR/Types.h`, not among the sources) returns:
32-bit and 64-bit scalars, "`v128` (128-bit SIMD)", and 8 bytes for the
reference types.  It instantiates the parameter `getTypeByteWidth`. -/
def typeByteWidth : ValueType → Nat
  | .i32 => 4
  | .f32 => 4
  | .i64 => 8
  | .f64 => 8
  | .v128 => 16
  | _ => 8

/-- A buffer of zero bytes. -/
def zeroMemory : Memory := fun _ => 0

/-- A context page of zero bytes. -/
def zeroPage : ContextRuntimeData := ⟨zeroMemory, zeroMemory⟩

/-- A compartment with the given context vector and `numGlobalBytes` allocated
bytes of global data, all of whose buffers hold zero bytes. -/
def compartmentWith (numGlobalBytes : Nat) (contexts : List (Option Context)) : Compartment :=
  ⟨numGlobalBytes, zeroMemory, contexts, fun _ => zeroPage⟩

/-- The value of the given type whose payload starts with the given bytes and
is zero after them. -/
def valueOfBytes (type : ValueType) (bytes : List UInt8) : Value :=
  ⟨type, ⟨fun i => bytes.getD i.val 0⟩⟩

/-- The compartment `compartmentWith 0 []` after one `createContext` on a page
of zero bytes. -/
def oneContextCompartment : Compartment :=
  ⟨0, zeroMemory, [some ⟨0⟩],
    setRuntimeData (fun _ => zeroPage) 0 ⟨zeroMemory, memcpy zeroMemory 0 zeroMemory 0⟩⟩

/-! ## Invoking functions -/

/-- Truncation of a natural number to a pointer-sized unsigned integer (`Uptr`). -/
def uptr (n : Nat) : Nat := n % 2 ^ 64

/-- The rounding `(argDataOffset + 15) & ~15` in `Uptr` arithmetic; `~15`,
converted to `Uptr`, is `2^64 - 16`. -/
def alignArgDataOffset (argDataOffset : Nat) : Nat :=
  uptr (argDataOffset + 15) &&& (2 ^ 64 - 16)

/-- The number of bytes by which `argDataOffset` advances after an argument of
the given type: `type == ValueType::v128 ? 16 : 8`. -/
def argSlotBytes (type : ValueType) : Nat := if type = .v128 then 16 else 8

/-- The types of runtime exception that the functions at hand throw
(`Exception::...Type`). -/
inductive Exception
  | outOfMemoryType
  | invokeSignatureMismatchType
  | integerDivideByZeroOrIntegerOverflowType
  | reachedUnreachableType
  | accessViolationType
  | invalidFloatOperationType
  | undefinedTableElementType
  | indirectCallSignatureMismatchType
  deriving DecidableEq, Repr

/-- The argument loop of `invokeFunctionUnchecked`, from parameter
`argumentIndex` on: the thunk argument buffer after the copies, or `none` when
the loop throws `outOfMemory`.  `arguments i` is `arguments[i]`. -/
def copyArguments (maxThunkArgAndReturnBytes : Nat) (getTypeByteWidth : ValueType → Nat)
    (arguments : Nat → UntaggedValue) :
    List ValueType → Nat → Memory → Nat → Option Memory
  | [], _, argData, _ => some argData
  | type :: rest, argumentIndex, argData, argDataOffset =>
    if (if type = .v128 then alignArgDataOffset argDataOffset else argDataOffset)
        ≥ maxThunkArgAndReturnBytes then none
    else
      copyArguments maxThunkArgAndReturnBytes getTypeByteWidth arguments rest
        (argumentIndex + 1)
        (memcpy argData (if type = .v128 then alignArgDataOffset argDataOffset else argDataOffset)
          (arguments argumentIndex).toMemory (getTypeByteWidth type))
        (uptr ((if type = .v128 then alignArgDataOffset argDataOffset else argDataOffset)
          + argSlotBytes type))

/-- The function `invokeFunctionUnchecked(context, function, arguments)`, on the
page of the context.  `invokeThunk` is the thunk that `LLVMJIT::getInvokeThunk`
yields, applied to the function's native code: it returns the page that holds
the results, or the callee throws.  The result is the buffer
`thunkArgAndReturnData` that the returned pointer points to. -/
def invokeFunctionUnchecked (maxThunkArgAndReturnBytes : Nat)
    (getTypeByteWidth : ValueType → Nat)
    (invokeThunk : ContextRuntimeData → Except Exception ContextRuntimeData)
    (contextRuntimeData : ContextRuntimeData) (functionType : FunctionType)
    (arguments : Nat → UntaggedValue) : Except Exception Memory :=
  match copyArguments maxThunkArgAndReturnBytes getTypeByteWidth arguments
      functionType.parameters 0 contextRuntimeData.thunkArgAndReturnData 0 with
  | none => .error .outOfMemoryType
  | some argData =>
    match invokeThunk { contextRuntimeData with thunkArgAndReturnData := argData } with
    | .error exception => .error exception
    | .ok returned => .ok returned.thunkArgAndReturnData

/-- The loop of `invokeFunctionChecked` that compares the type of each argument
with the parameter of the same index; `false` when it throws. -/
def argumentTypesMatch : List ValueType → List Value → Bool
  | type :: types, argument :: arguments =>
    if type ≠ argument.type then false else argumentTypesMatch types arguments
  | _, _ => true

/-- The block `untaggedArguments` of `invokeFunctionChecked`: element `i` is
`arguments[i]` without its tag. -/
def untaggedArguments (arguments : List Value) : Nat → UntaggedValue :=
  fun i =>
    match arguments[i]? with
    | some argument => argument.payload
    | none => ⟨fun _ => 0⟩

/-- The function `invokeFunctionChecked(context, function, arguments)`; the
`Result` is the declared return type with the untagged value at the start of
the returned buffer. -/
def invokeFunctionChecked (maxThunkArgAndReturnBytes : Nat)
    (getTypeByteWidth : ValueType → Nat)
    (invokeThunk : ContextRuntimeData → Except Exception ContextRuntimeData)
    (contextRuntimeData : ContextRuntimeData) (functionType : FunctionType)
    (arguments : List Value) : Except Exception Value :=
  if arguments.length ≠ functionType.parameters.length then
    .error .invokeSignatureMismatchType
  else if argumentTypesMatch functionType.parameters arguments = false then
    .error .invokeSignatureMismatchType
  else
    match invokeFunctionUnchecked maxThunkArgAndReturnBytes getTypeByteWidth invokeThunk
        contextRuntimeData functionType (untaggedArguments arguments) with
    | .error exception => .error exception
    | .ok returned => .ok ⟨functionType.ret, loadUntaggedValue returned 0⟩

/-- The layout in the words of the specification: the offsets of the arguments
of the given types when the first free offset is `start`.  Before a `v128`
argument the offset is rounded up to the next multiple of 16; a scalar argument
occupies an 8-byte slot and a `v128` argument a 16-byte slot. -/
def slotOffsetsFrom : Nat → List ValueType → List Nat
  | _, [] => []
  | start, type :: rest =>
    (if type = .v128 then (start + 15) / 16 * 16 else start) ::
      slotOffsetsFrom ((if type = .v128 then (start + 15) / 16 * 16 else start)
        + (if type = .v128 then 16 else 8)) rest

/-- The offsets of the arguments of a function type, starting at 0. -/
def slotOffsets (parameters : List ValueType) : List Nat := slotOffsetsFrom 0 parameters

/-- The number of scratch bytes that the argument slots need, alignment padding
included, when the first free offset is `start`: the end of the last slot. -/
def slotBytesNeededFrom : Nat → List ValueType → Nat
  | start, [] => start
  | start, type :: rest =>
    slotBytesNeededFrom ((if type = .v128 then (start + 15) / 16 * 16 else start)
      + (if type = .v128 then 16 else 8)) rest

/-- The number of scratch bytes that the argument slots of a function type need. -/
def slotBytesNeeded (parameters : List ValueType) : Nat := slotBytesNeededFrom 0 parameters

/-- The buffer after `getTypeByteWidth(type)` bytes of each argument were copied
to the offset of its slot, in the order of the arguments. -/
def copyToSlots (getTypeByteWidth : ValueType → Nat) (arguments : Nat → UntaggedValue) :
    List ValueType → List Nat → Nat → Memory → Memory
  | type :: rest, offset :: offsets, argumentIndex, argData =>
    copyToSlots getTypeByteWidth arguments rest offsets (argumentIndex + 1)
      (memcpy argData offset (arguments argumentIndex).toMemory (getTypeByteWidth type))
  | _, _, _, argData => argData

/-- The arguments and the parameters disagree, in the words of the
specification: the numbers differ, or some argument's type is not the parameter
of the same index. -/
def signatureMismatch (parameters : List ValueType) (arguments : List Value) : Prop :=
  arguments.length ≠ parameters.length ∨
  ∃ (i : Nat) (argument : Value) (type : ValueType),
    arguments[i]? = some argument ∧ parameters[i]? = some type ∧ argument.type ≠ type

/-! ## Intrinsics -/

/-- The conversion `(Uptr)x` of a signed integer to a pointer-sized unsigned
integer. -/
def toUptr (x : Int) : Nat := (x % 2 ^ 64).toNat

/-- The conversion `(I32)x` of an integer to a signed 32-bit integer. -/
def toI32 (x : Int) : Int := (x + 2 ^ 31) % 2 ^ 32 - 2 ^ 31

/-- The intrinsic `growMemory(deltaPages, memoryId)`.  `growMemory` is the
runtime's function of that name applied to the memory of `memoryId`: it takes
the number of pages to add and returns the previous number of pages, or -1.
`deltaPages` is the `i32` argument and `maxMemoryPages` is `IR::maxMemoryPages`;
the sum `numPreviousMemoryPages + (Uptr)deltaPages` is computed in `Uptr`. -/
def _growMemory (maxMemoryPages : Nat) (growMemory : Nat → Int) (deltaPages : Int) : Int :=
  if uptr (toUptr (growMemory (toUptr deltaPages)) + toUptr deltaPages) > maxMemoryPages
  then -1
  else toI32 (growMemory (toUptr deltaPages))

/-- The format of a binary floating-point type: the widths of the significand
and exponent fields of `Floats::FloatComponents<Float>`. -/
structure FloatFormat where
  numSignificandBits : Nat
  numExponentBits : Nat
  deriving DecidableEq, Repr

/-- The format of `F32`. -/
def f32Format : FloatFormat := ⟨23, 8⟩

/-- The format of `F64`. -/
def f64Format : FloatFormat := ⟨52, 11⟩

/-- The field `bits.significand` of a float given by its bit pattern. -/
def significand (format : FloatFormat) (value : Nat) : Nat :=
  value % 2 ^ format.numSignificandBits

/-- The field `bits.exponent` of a float given by its bit pattern. -/
def exponent (format : FloatFormat) (value : Nat) : Nat :=
  value / 2 ^ format.numSignificandBits % 2 ^ format.numExponentBits

/-- The field `bits.sign` of a float given by its bit pattern. -/
def sign (format : FloatFormat) (value : Nat) : Nat :=
  value / 2 ^ (format.numSignificandBits + format.numExponentBits) % 2

/-- Modelled from the spec: the member `bitcastInt` of `Floats::FloatComponents`
(declared in `Inline/Floats.h`, not among the sources), the "integer bitcast" of
the float: the bit pattern as an unsigned integer. -/
def bitcastInt (value : Nat) : Nat := value

/-- The test `value != value`: the float is a NaN. -/
def isNaN (format : FloatFormat) (value : Nat) : Bool :=
  decide (exponent format value = 2 ^ format.numExponentBits - 1) &&
    decide (significand format value ≠ 0)

/-- The place of a float that is not a NaN in the order of the reals: the
magnitude bits, negated when the sign bit is set. -/
def orderKey (format : FloatFormat) (value : Nat) : Int :=
  if sign format value = 1 then
    -((value % 2 ^ (format.numSignificandBits + format.numExponentBits) : Nat) : Int)
  else ((value % 2 ^ (format.numSignificandBits + format.numExponentBits) : Nat) : Int)

/-- The comparison `left < right` of two floats: false when one is a NaN. -/
def floatLess (format : FloatFormat) (left right : Nat) : Bool :=
  !isNaN format left && !isNaN format right &&
    decide (orderKey format left < orderKey format right)

/-- The function `quietNaN(value)`: the significand field is or-ed with its
most significant bit and stored back. -/
def quietNaN (format : FloatFormat) (value : Nat) : Nat :=
  value - significand format value
    + (significand format value ||| 2 ^ (format.numSignificandBits - 1))
        % 2 ^ format.numSignificandBits

/-- The function `floatMin(left, right)`. -/
def floatMin (format : FloatFormat) (left right : Nat) : Nat :=
  if isNaN format left then quietNaN format left
  else if isNaN format right then quietNaN format right
  else if floatLess format left right then left
  else if floatLess format right left then right
  else if bitcastInt left < bitcastInt right then right else left

/-- The function `floatMax(left, right)`. -/
def floatMax (format : FloatFormat) (left right : Nat) : Nat :=
  if isNaN format left then quietNaN format left
  else if isNaN format right then quietNaN format right
  else if floatLess format right left then left
  else if floatLess format left right then right
  else if bitcastInt left > bitcastInt right then right else left

/-- The function `floatCeil(value)`; `ceil` is the library function, on bit
patterns. -/
def floatCeil (format : FloatFormat) (ceil : Nat → Nat) (value : Nat) : Nat :=
  if isNaN format value then quietNaN format value else ceil value

/-- The function `floatFloor(value)`; `floor` is the library function, on bit
patterns. -/
def floatFloor (format : FloatFormat) (floor : Nat → Nat) (value : Nat) : Nat :=
  if isNaN format value then quietNaN format value else floor value

/-- The function `floatTrunc(value)`; `trunc` is the library function, on bit
patterns. -/
def floatTrunc (format : FloatFormat) (trunc : Nat → Nat) (value : Nat) : Nat :=
  if isNaN format value then quietNaN format value else trunc value

/-- The function `floatNearest(value)`; `nearbyint` is the library function, on
bit patterns. -/
def floatNearest (format : FloatFormat) (nearbyint : Nat → Nat) (value : Nat) : Nat :=
  if isNaN format value then quietNaN format value else nearbyint value

/-- The bit pattern of `+0.0`. -/
def positiveZero : Nat := 0

/-- The bit pattern of `-0.0`: only the sign bit is set. -/
def negativeZero (format : FloatFormat) : Nat :=
  2 ^ (format.numSignificandBits + format.numExponentBits)

/-! ## Sequences of global allocations -/

/-- Successful calls of `createGlobal` on one compartment, one after the
other: `CreatesGlobals C globals D` says that the calls lead from the state `C`
to the state `D` and returned `globals`, in the order of the calls. -/
inductive CreatesGlobals (maxGlobalBytes : Nat) (getTypeByteWidth : ValueType → Nat) :
    Compartment → List GlobalInstance → Compartment → Prop
  | none (C : Compartment) : CreatesGlobals maxGlobalBytes getTypeByteWidth C [] C
  | call (C D E : Compartment) (globals : List GlobalInstance) (type : GlobalType)
      (initialValue : Value) (global : GlobalInstance) :
      CreatesGlobals maxGlobalBytes getTypeByteWidth C globals D →
      createGlobal maxGlobalBytes getTypeByteWidth (some D) type initialValue
        = .ok (some E, some global) →
      CreatesGlobals maxGlobalBytes getTypeByteWidth C (globals ++ [global]) E

/-- The bytes `[mutableDataOffset, mutableDataOffset + width)` of a global in
the per-context global data. -/
def GlobalInstance.occupies (getTypeByteWidth : ValueType → Nat) (global : GlobalInstance)
    (a : Nat) : Prop :=
  global.mutableDataOffset ≤ a ∧
    a < global.mutableDataOffset + getTypeByteWidth global.type.valueType

end Runtime

/-! # The `wavm run` driver

A shallow embedding of the parts of `Programs/wavm/wavm-run.cpp` that decide the
ABI, the exit code and the command-line options.  A C string (`const char*`) is
the list of its characters before the terminating zero. -/

namespace WavmRun

/-- A C string: the characters before the terminating zero. -/
abbrev CString := List Char

/-- The library call `strlen(string)`. -/
def strlen (string : CString) : Nat := string.length

/-- The test `!strcmp(left, right)`: the strings are equal. -/
def strEqual (left right : CString) : Bool := decide (left = right)

/-- The function `stringStartsWith(string, start)`:
`!strncmp(string, start, numStartChars - 1)`, which compares the first
`strlen(start)` characters, or up to the end of the shorter string. -/
def stringStartsWith (string start : CString) : Bool :=
  decide (string.take (strlen start) = start.take (strlen start))

/-- An import of a module: `moduleName` and `exportName`. -/
structure Import where
  moduleName : String
  exportName : String
  deriving DecidableEq, Repr

/-- The imports of an `IR::Module` that the ABI detection reads:
`functions.imports` and `memories.imports`. -/
structure Module where
  functionImports : List Import
  memoryImports : List Import
  deriving Repr

/-- The ABIs (`enum class ABI`). -/
inductive ABI
  | detect | bare | emscripten | wasi
  deriving DecidableEq, Repr

/-- The function `isWASIModule(irModule)`. -/
def isWASIModule (irModule : Module) : Bool :=
  irModule.functionImports.any (fun i => i.moduleName == "wasi_unstable")

/-- The function `isEmscriptenModule(irModule)`. -/
def isEmscriptenModule (irModule : Module) : Bool :=
  match irModule.memoryImports with
  | [] => false
  | first :: _ =>
    if first.moduleName ≠ "env" ∨ first.exportName ≠ "memory" then false
    else irModule.functionImports.any (fun i => i.moduleName == "env")

/-- The ABI that `State::initABIEnvironment` settles on, given the `abi` field
after the command line was parsed. -/
def detectABI (abi : ABI) (irModule : Module) : ABI :=
  if abi = .detect then
    if isWASIModule irModule then .wasi
    else if isEmscriptenModule irModule then .emscripten
    else .bare
  else abi

/-- The detection rule in the words of the specification, with the
memory import read as the claim reads it: any of the memory imports. -/
def detectABIAnyMemory (irModule : Module) : ABI :=
  if irModule.functionImports.any (fun i => i.moduleName == "wasi_unstable") then .wasi
  else if irModule.memoryImports.any (fun i => i.moduleName == "env" && i.exportName == "memory")
      && irModule.functionImports.any (fun i => i.moduleName == "env") then .emscripten
  else .bare

/-- The member `i32` of the untagged value union: the first four bytes, least
significant first, as a signed 32-bit integer. -/
def i32Of (value : Runtime.UntaggedValue) : Int :=
  Runtime.toI32
    (((value.bytes ⟨0, by decide⟩).toNat + 2 ^ 8 * (value.bytes ⟨1, by decide⟩).toNat
      + 2 ^ 16 * (value.bytes ⟨2, by decide⟩).toNat
      + 2 ^ 24 * (value.bytes ⟨3, by decide⟩).toNat : Nat) : Int)

/-- The exit code `EXIT_SUCCESS`. -/
def EXIT_SUCCESS : Int := 0

/-- The value of `result` that `State::run` returns when the start function and
the invoked function returned normally: `functionName` is the `-f` option,
`results` are `invokeSig.results()` and `untaggedInvokeResults` the values the
function returned. -/
def exitCodeAfterInvoke (functionName : Option CString) (results : List Runtime.ValueType)
    (untaggedInvokeResults : List Runtime.UntaggedValue) : Int :=
  if functionName.isSome then EXIT_SUCCESS
  else
    match untaggedInvokeResults, results with
    | [untaggedResult], type :: _ =>
      if type = .i32 then i32Of untaggedResult else EXIT_SUCCESS
    | _, _ => EXIT_SUCCESS

/-- The levels of WASI tracing (`WASI::SyscallTraceLevel`). -/
inductive SyscallTraceLevel
  | none | syscalls | syscallsWithCallstacks
  deriving DecidableEq, Repr

/-- The fields of `State` that the command-line options set.  `featureSpec` is
kept as the list of the features that were enabled. -/
structure State where
  featureSpec : List CString
  filename : Option CString
  functionName : Option CString
  rootMountPath : Option CString
  abi : ABI
  precompiled : Bool
  wasiTraceLavel : SyscallTraceLevel
  deriving Repr

/-- The state before the command line is parsed. -/
def State.initial : State := ⟨[], none, none, none, .detect, false, .none⟩

/-- How one iteration of the option loop of `parseCommandLineAndEnvironment`
ends: the function returns false, the loop goes on with the next argument, or
the loop ends at the file name. -/
inductive ParseStep
  | failed
  | next (state : State) (rest : List CString)
  | file (state : State) (rest : List CString)
  deriving Repr

/-- One iteration of the option loop of `parseCommandLineAndEnvironment`, on the
argument `arg` with the arguments `rest` after it.  `parseAndSetFeature` is the
function of that name (declared in `IR/FeatureSpec.h`): `none` when the feature
is unknown. -/
def parseArgument (parseAndSetFeature : CString → List CString → Option (List CString))
    (state : State) (arg : CString) (rest : List CString) : ParseStep :=
  if strEqual arg "--function".toList || strEqual arg "-f".toList then
    match rest with
    | [] => .failed
    | name :: rest => .next { state with functionName := some name } rest
  else if stringStartsWith arg "--abi=".toList then
    if state.abi ≠ .detect then .failed
    else if strEqual (arg.drop (strlen "--abi=".toList)) "bare".toList then
      .next { state with abi := .bare } rest
    else if strEqual (arg.drop (strlen "--abi=".toList)) "emscripten".toList then
      .next { state with abi := .emscripten } rest
    else if strEqual (arg.drop (strlen "--abi=".toList)) "wasi".toList then
      .next { state with abi := .wasi } rest
    else .failed
  else if strEqual arg "--enable".toList then
    match rest with
    | [] => .failed
    | feature :: rest =>
      match parseAndSetFeature feature state.featureSpec with
      | none => .failed
      | some featureSpec => .next { state with featureSpec := featureSpec } rest
  else if strEqual arg "--precompiled".toList then
    .next { state with precompiled := true } rest
  else if strEqual arg "--mount-root".toList then
    if state.rootMountPath.isSome then .failed
    else
      match rest with
      | [] => .failed
      | path :: rest => .next { state with rootMountPath := some path } rest
  else if stringStartsWith arg "--wasi-trace=".toList then
    if state.wasiTraceLavel ≠ .none then .failed
    else if strEqual (arg.drop (strlen "--mount-root=".toList)) "syscalls".toList then
      .next { state with wasiTraceLavel := .syscalls } rest
    else if strEqual (arg.drop (strlen "--mount-root=".toList))
        "syscalls-with-callstacks".toList then
      .next { state with wasiTraceLavel := .syscallsWithCallstacks } rest
    else .failed
  else if arg.head? ≠ some '-' then
    .file { state with filename := some arg } rest
  else .failed

/-- The option loop goes from one argument to a later one without failing. -/
inductive ParseReaches (parseAndSetFeature : CString → List CString → Option (List CString)) :
    State → List CString → State → List CString → Prop
  | here (state : State) (args : List CString) :
      ParseReaches parseAndSetFeature state args state args
  | step (state : State) (arg : CString) (rest : List CString) (state2 : State)
      (rest2 : List CString) (state3 : State) (rest3 : List CString) :
      parseArgument parseAndSetFeature state arg rest = .next state2 rest2 →
      ParseReaches parseAndSetFeature state2 rest2 state3 rest3 →
      ParseReaches parseAndSetFeature state (arg :: rest) state3 rest3

end WavmRun

namespace Runtime

/-! ## Arithmetic of the alignment mask -/

theorem and_not32_two_pow (x k : Nat) (hx : x < 2 ^ 32) (hk : k ≤ 32) :
    and32 x (not32 (2 ^ k - 1)) = 2 ^ k * (x / 2 ^ k) := by
  have hlt : 2 ^ k - 1 < 2 ^ 32 := by
    have : 2 ^ k ≤ 2 ^ 32 := Nat.pow_le_pow_right (by decide) hk
    have : 0 < 2 ^ k := Nat.two_pow_pos k
    omega
  unfold and32 not32
  rw [Nat.mod_eq_of_lt hlt]
  apply Nat.eq_of_testBit_eq
  intro i
  have h1 : 2 ^ 32 - 1 - (2 ^ k - 1) = 2 ^ 32 - ((2 ^ k - 1) + 1) := by omega
  rw [Nat.testBit_and, h1, Nat.testBit_two_pow_sub_succ hlt, Nat.testBit_two_pow_sub_one,
    Nat.testBit_mul_pow_two, ← Nat.shiftRight_eq_div_pow, Nat.testBit_shiftRight]
  by_cases hik : k ≤ i
  · by_cases hi32 : i < 32
    · have : k + (i - k) = i := by omega
      simp [hik, hi32, this, Nat.not_lt.mpr hik]
    · have hx2 : x < 2 ^ i := lt_of_lt_of_le hx (Nat.pow_le_pow_right (by decide) (by omega))
      have : k + (i - k) = i := by omega
      simp [hik, hi32, this, Nat.testBit_lt_two_pow hx2]
  · have : i < k := by omega
    simp [hik, this]

end Runtime

namespace Runtime

theorem alignedDataOffset_two_pow (n k : Nat) (h : n + 2 ^ k ≤ 2 ^ 32) :
    alignedDataOffset n (2 ^ k) = 2 ^ k * ((n + 2 ^ k - 1) / 2 ^ k) := by
  have hpos : 0 < 2 ^ k := Nat.two_pow_pos k
  have hk : k ≤ 32 := by
    by_contra hc
    have : 2 ^ 33 ≤ 2 ^ k := Nat.pow_le_pow_right (by decide) (by omega)
    omega
  have h1 : sub32 (add32 n (2 ^ k)) 1 = n + 2 ^ k - 1 := by
    unfold sub32 add32
    generalize 2 ^ k = w at *
    omega
  have h2 : not32 (sub32 (2 ^ k) 1) = not32 (2 ^ k - 1) := by
    unfold not32 sub32
    generalize 2 ^ k = w at *
    omega
  unfold alignedDataOffset
  rw [h1, h2]
  exact and_not32_two_pow _ k (by omega) hk

/-- What a returned global tells about a call of `createGlobal` with a mutable
type: the arena check passed, no slot of the context vector was null, and the
compartment and the global are the ones the code builds. -/
theorem createGlobal_mutable_inv (maxGlobalBytes : Nat) (getTypeByteWidth : ValueType → Nat)
    (C D : Compartment) (type : GlobalType) (initialValue : Value) (g : GlobalInstance)
    (hmut : type.isMutable = true)
    (hok : createGlobal maxGlobalBytes getTypeByteWidth (some C) type initialValue
      = .ok (some D, some g)) :
    initialValue.type = type.valueType ∧
    add32 (alignedDataOffset C.numGlobalBytes (u32 (getTypeByteWidth type.valueType)))
      (u32 (getTypeByteWidth type.valueType)) < maxGlobalBytes ∧
    g = ⟨type, alignedDataOffset C.numGlobalBytes (u32 (getTypeByteWidth type.valueType)),
      initialValue.payload⟩ ∧
    D.numGlobalBytes =
      add32 (alignedDataOffset C.numGlobalBytes (u32 (getTypeByteWidth type.valueType)))
        (u32 (getTypeByteWidth type.valueType)) ∧
    D.initialContextGlobalData =
      memcpy C.initialContextGlobalData
        (alignedDataOffset C.numGlobalBytes (u32 (getTypeByteWidth type.valueType)))
        initialValue.payload.toMemory (u32 (getTypeByteWidth type.valueType)) ∧
    D.contexts = C.contexts ∧
    initContextGlobals
        (alignedDataOffset C.numGlobalBytes (u32 (getTypeByteWidth type.valueType)))
        (u32 (getTypeByteWidth type.valueType)) initialValue.payload.toMemory
        C.contexts C.runtimeData = some D.runtimeData := by
  unfold createGlobal at hok
  rw [hmut] at hok
  by_cases hty : initialValue.type = type.valueType
  · simp only [hty, ne_eq, not_true_eq_false, if_false] at hok
    split at hok
    · cases hok
    · split at hok
      · cases hok
      · rename_i rd hrd
        simp only [Outcome.ok.injEq, Prod.mk.injEq, Option.some.injEq] at hok
        obtain ⟨hD, hg⟩ := hok
        subst hD hg
        rename_i hlt
        exact ⟨hty, by omega, rfl, rfl, rfl, rfl, hrd⟩
  · simp [hty] at hok

end Runtime

namespace Runtime

/-- The aligned offset of a power-of-two width: a multiple of the width, at or
after the current high-water mark, with less than one width of padding; the
32-bit operations do not wrap when twice the width fits above the mark. -/
theorem alignedDataOffset_facts (n k : Nat) (h : n + 2 * 2 ^ k ≤ 2 ^ 32) :
    u32 (2 ^ k) = 2 ^ k ∧
    alignedDataOffset n (2 ^ k) % 2 ^ k = 0 ∧
    n ≤ alignedDataOffset n (2 ^ k) ∧
    alignedDataOffset n (2 ^ k) < n + 2 ^ k ∧
    add32 (alignedDataOffset n (2 ^ k)) (2 ^ k) = alignedDataOffset n (2 ^ k) + 2 ^ k := by
  have hpos : 0 < 2 ^ k := Nat.two_pow_pos k
  have hoff := alignedDataOffset_two_pow n k (by omega)
  have hdm := Nat.div_add_mod (n + 2 ^ k - 1) (2 ^ k)
  have hmod := Nat.mod_lt (n + 2 ^ k - 1) hpos
  have hmul : alignedDataOffset n (2 ^ k) % 2 ^ k = 0 := by
    rw [hoff]; exact Nat.mul_mod_right _ _
  rw [← hoff] at hdm
  refine ⟨?_, hmul, by omega, by omega, ?_⟩
  · unfold u32; exact Nat.mod_eq_of_lt (by omega)
  · unfold add32; exact Nat.mod_eq_of_lt (by omega)

/-- C1: a successful `createGlobal` of a mutable global whose width is a power
of two, in a compartment with `numGlobalBytes ≤ maxGlobalBytes`, assigns an
offset that is a multiple of the width and ends inside the arena, and sets
`numGlobalBytes` to the end of the allocation, which keeps it within
`maxGlobalBytes`.  The arena is taken to be small enough for the 32-bit
arithmetic of the allocation not to wrap. -/
theorem createGlobal_mutable_aligned_within_arena
    (maxGlobalBytes : Nat) (getTypeByteWidth : ValueType → Nat) (C D : Compartment)
    (type : GlobalType) (initialValue : Value) (g : GlobalInstance) (k : Nat)
    (hbound : C.numGlobalBytes ≤ maxGlobalBytes)
    (hmut : type.isMutable = true)
    (hwidth : getTypeByteWidth type.valueType = 2 ^ k)
    (harena : maxGlobalBytes + 2 * 2 ^ k ≤ 2 ^ 32)
    (hok : createGlobal maxGlobalBytes getTypeByteWidth (some C) type initialValue
      = .ok (some D, some g)) :
    g.mutableDataOffset % 2 ^ k = 0 ∧
    g.mutableDataOffset + 2 ^ k ≤ maxGlobalBytes ∧
    D.numGlobalBytes = g.mutableDataOffset + 2 ^ k ∧
    D.numGlobalBytes ≤ maxGlobalBytes := by
  obtain ⟨_, hlt, hg, hnum, _, _, _⟩ :=
    createGlobal_mutable_inv maxGlobalBytes getTypeByteWidth C D type initialValue g hmut hok
  obtain ⟨hu, hmod, _, _, hadd⟩ := alignedDataOffset_facts C.numGlobalBytes k (by omega)
  rw [hwidth, hu] at hlt hnum hg
  rw [hadd] at hlt hnum
  subst hg
  simp only
  exact ⟨hmod, by omega, hnum, by omega⟩

/-- C1, at a concrete input: a mutable `i64` global in an arena of 3840 bytes of
which 4 are in use is placed at offset 8 and moves the mark to 16. -/
theorem createGlobal_mutable_aligned_within_arena_witness :
    (8 : Nat) % 2 ^ 3 = 0 ∧ 8 + 2 ^ 3 ≤ 3840 ∧ (16 : Nat) = 8 + 2 ^ 3 ∧ (16 : Nat) ≤ 3840 :=
  createGlobal_mutable_aligned_within_arena 3840 typeByteWidth (compartmentWith 4 [])
    ⟨16, memcpy zeroMemory 8 (valueOfBytes .i64 [7]).payload.toMemory 8, [], fun _ => zeroPage⟩
    ⟨.i64, true⟩ (valueOfBytes .i64 [7]) ⟨⟨.i64, true⟩, 8, (valueOfBytes .i64 [7]).payload⟩ 3
    (by decide) rfl rfl (by decide) rfl

end Runtime

namespace Runtime

/-- C2: the allocation that would end exactly at the end of the arena is
refused.  With 3832 of 3840 bytes in use, an `i64` global has the aligned
offset 3832 and would occupy the last 8 bytes of the arena, yet `createGlobal`
returns null and leaves the compartment as it was. -/
theorem createGlobal_null_at_exact_fit :
    alignedDataOffset 3832 (typeByteWidth .i64) + typeByteWidth .i64 = 3840 ∧
    createGlobal 3840 typeByteWidth (some (compartmentWith 3832 [])) ⟨.i64, true⟩
      (valueOfBytes .i64 [7]) = .ok (some (compartmentWith 3832 []), none) :=
  ⟨by decide, rfl⟩

/-- Bytes that the loop of `createGlobal` has written in a page stay written
by the rest of the loop. -/
theorem initContextGlobals_keeps (dataOffset numBytes : Nat) (value : Memory) (id : Nat)
    (contexts : List (Option Context)) :
    ∀ (runtimeData result : Nat → ContextRuntimeData),
      initContextGlobals dataOffset numBytes value contexts runtimeData = some result →
      (∀ a, dataOffset ≤ a → a < dataOffset + numBytes →
        (runtimeData id).globalData a = value (a - dataOffset)) →
      ∀ a, dataOffset ≤ a → a < dataOffset + numBytes →
        (result id).globalData a = value (a - dataOffset) := by
  induction contexts with
  | nil =>
    intro runtimeData result h hP
    simp only [initContextGlobals, Option.some.injEq] at h
    subst h
    exact hP
  | cons slot rest ih =>
    intro runtimeData result h hP
    cases slot with
    | none => simp [initContextGlobals] at h
    | some context =>
      simp only [initContextGlobals] at h
      refine ih _ result h ?_
      intro a h1 h2
      unfold setRuntimeData
      by_cases hid : id = context.id
      · simp [hid, memcpy, h1, h2]
      · simp only [hid, if_false]
        exact hP a h1 h2

/-- The loop of `createGlobal`, when it completes, has written the value into
the page of every context of the vector. -/
theorem initContextGlobals_written (dataOffset numBytes : Nat) (value : Memory) (ctx : Context)
    (contexts : List (Option Context)) :
    ∀ (runtimeData result : Nat → ContextRuntimeData),
      some ctx ∈ contexts →
      initContextGlobals dataOffset numBytes value contexts runtimeData = some result →
      ∀ a, dataOffset ≤ a → a < dataOffset + numBytes →
        (result ctx.id).globalData a = value (a - dataOffset) := by
  induction contexts with
  | nil => intro _ _ hmem; simp at hmem
  | cons slot rest ih =>
    intro runtimeData result hmem h
    cases slot with
    | none => simp [initContextGlobals] at h
    | some context =>
      simp only [initContextGlobals] at h
      rcases List.mem_cons.mp hmem with heq | hrest
      · have hc : ctx = context := Option.some.inj heq
        subst hc
        refine initContextGlobals_keeps dataOffset numBytes value ctx.id rest _ result h ?_
        intro a h1 h2
        simp [setRuntimeData, memcpy, h1, h2]
      · exact ih _ result hrest h

/-- The loop of `createGlobal` completes exactly when no slot is null. -/
theorem initContextGlobals_isSome_iff (dataOffset numBytes : Nat) (value : Memory)
    (contexts : List (Option Context)) :
    ∀ (runtimeData : Nat → ContextRuntimeData),
      (initContextGlobals dataOffset numBytes value contexts runtimeData).isSome = true ↔
        none ∉ contexts := by
  induction contexts with
  | nil => intro _; simp [initContextGlobals]
  | cons slot rest ih =>
    intro runtimeData
    cases slot with
    | none => simp [initContextGlobals]
    | some context => simp [initContextGlobals, ih]

/-- Where the value union of the new global ends inside `globalData`: after a
successful `createGlobal` of a mutable global of width at most the size of the
value union, the bytes at the global's offset in `initialContextGlobalData` are
those of the initial value, and in every context of the compartment's context
vector `getGlobalValue` returns the initial value: the same type tag and the
same payload on the width of the type. -/
theorem createGlobal_mutable_stores_initial_value_in_page
    (maxGlobalBytes : Nat) (getTypeByteWidth : ValueType → Nat) (C D : Compartment)
    (type : GlobalType) (initialValue : Value) (g : GlobalInstance)
    (hmut : type.isMutable = true)
    (hwidth : getTypeByteWidth type.valueType ≤ untaggedValueBytes)
    (hok : createGlobal maxGlobalBytes getTypeByteWidth (some C) type initialValue
      = .ok (some D, some g))
    (hpage : g.mutableDataOffset + untaggedValueBytes ≤ maxGlobalBytes) :
    (∀ i : Fin untaggedValueBytes, i.val < getTypeByteWidth type.valueType →
      D.initialContextGlobalData (g.mutableDataOffset + i.val) = initialValue.payload.bytes i) ∧
    (∀ ctx : Context, some ctx ∈ C.contexts →
      ∃ r : Value, getGlobalValue maxGlobalBytes D (some ctx) g = .ok r ∧
        r.sameOnWidth (getTypeByteWidth type.valueType) initialValue) := by
  obtain ⟨hty, _, hg, _, hinit, _, hloop⟩ :=
    createGlobal_mutable_inv maxGlobalBytes getTypeByteWidth C D type initialValue g hmut hok
  have hu : u32 (getTypeByteWidth type.valueType) = getTypeByteWidth type.valueType := by
    unfold u32
    unfold untaggedValueBytes at hwidth
    exact Nat.mod_eq_of_lt (by omega)
  rw [hu] at hg hinit hloop
  subst hg
  simp only at hpage
  constructor
  · intro i hi
    rw [hinit]
    have hlt : i.val < untaggedValueBytes := i.isLt
    simp [memcpy, hi, UntaggedValue.toMemory, hlt]
  · intro ctx hmem
    refine ⟨⟨type.valueType, loadUntaggedValue (D.runtimeData ctx.id).globalData
      (alignedDataOffset C.numGlobalBytes (getTypeByteWidth type.valueType))⟩,
      by simp only [getGlobalValue, hmut]; rw [if_neg (by omega)], hty.symm, ?_⟩
    intro i hi
    have hw := initContextGlobals_written _ _ _ ctx C.contexts C.runtimeData D.runtimeData
      hmem hloop (alignedDataOffset C.numGlobalBytes (getTypeByteWidth type.valueType) + i.val)
      (by omega) (by omega)
    have hlt : i.val < untaggedValueBytes := i.isLt
    simp only [loadUntaggedValue]
    rw [hw]
    simp [UntaggedValue.toMemory, hlt]

end Runtime

namespace Runtime

/-- A mutable `i32` global with initial bytes `7 0 0 0` created at offset 0 in a
compartment with one context. -/
theorem createGlobal_mutable_stores_initial_value_in_page_witness :
    (∀ i : Fin untaggedValueBytes, i.val < typeByteWidth .i32 →
      memcpy zeroMemory 0 (valueOfBytes .i32 [7]).payload.toMemory 4 (0 + i.val)
        = (valueOfBytes .i32 [7]).payload.bytes i) ∧
    (∀ ctx : Context, some ctx ∈ [some (⟨0⟩ : Context)] →
      ∃ r : Value,
        getGlobalValue 3840
          ⟨4, memcpy zeroMemory 0 (valueOfBytes .i32 [7]).payload.toMemory 4, [some ⟨0⟩],
            setRuntimeData (fun _ => zeroPage) 0
              ⟨zeroMemory, memcpy zeroMemory 0 (valueOfBytes .i32 [7]).payload.toMemory 4⟩⟩
          (some ctx) ⟨⟨.i32, true⟩, 0, (valueOfBytes .i32 [7]).payload⟩ = .ok r ∧
        r.sameOnWidth (typeByteWidth .i32) (valueOfBytes .i32 [7])) :=
  createGlobal_mutable_stores_initial_value_in_page 3840 typeByteWidth
    (compartmentWith 0 [some ⟨0⟩])
    ⟨4, memcpy zeroMemory 0 (valueOfBytes .i32 [7]).payload.toMemory 4, [some ⟨0⟩],
      setRuntimeData (fun _ => zeroPage) 0
        ⟨zeroMemory, memcpy zeroMemory 0 (valueOfBytes .i32 [7]).payload.toMemory 4⟩⟩
    ⟨.i32, true⟩ (valueOfBytes .i32 [7]) ⟨⟨.i32, true⟩, 0, (valueOfBytes .i32 [7]).payload⟩
    rfl (by decide) rfl (by decide)

/-- C3 fails in the code: with 3832 of the 3840 bytes of global data in use,
`createGlobal` of a mutable `i32` global succeeds with offset 3832, since
3832 + 4 < 3840, and the 4 bytes of the initial value are in
`initialContextGlobalData`; `getGlobalValue` of that global in the context of
the compartment then loads the 16 bytes of the value union from offset 3832,
which runs past the end of `globalData`, so it does not return the initial
value. -/
theorem getGlobalValue_of_new_global_leaves_the_array :
    ∃ (D : Compartment) (g : GlobalInstance),
      createGlobal 3840 typeByteWidth (some (compartmentWith 3832 [some ⟨0⟩])) ⟨.i32, true⟩
        (valueOfBytes .i32 [7]) = .ok (some D, some g) ∧
      g.mutableDataOffset = 3832 ∧
      g.mutableDataOffset + typeByteWidth .i32 ≤ 3840 ∧
      D.initialContextGlobalData g.mutableDataOffset = 7 ∧
      3840 < g.mutableDataOffset + untaggedValueBytes ∧
      getGlobalValue 3840 D (some ⟨0⟩) g = .outOfBounds := by
  refine ⟨_, _, rfl, rfl, by decide, ?_, by decide, rfl⟩
  decide

end Runtime

namespace Runtime

/-- C4: `createContext` returns whenever the page commit succeeds; the new
context's global data then equals `initialContextGlobalData` on every byte below
`numGlobalBytes`, `numGlobalBytes` and `initialContextGlobalData` are unchanged,
and two contexts created from the same compartment state, or one after the
other, agree on every byte below `numGlobalBytes`. -/
theorem createContext_copies_initial_global_data (C : Compartment)
    (page page2 : ContextRuntimeData) :
    ∃ (c : Context) (D : Compartment), createContext C (some page) = .ok (c, D) ∧
      (∀ o, o < C.numGlobalBytes →
        (D.runtimeData c.id).globalData o = C.initialContextGlobalData o) ∧
      D.numGlobalBytes = C.numGlobalBytes ∧
      D.initialContextGlobalData = C.initialContextGlobalData ∧
      (∃ (c2 : Context) (D2 : Compartment), createContext C (some page2) = .ok (c2, D2) ∧
        ∀ o, o < C.numGlobalBytes →
          (D.runtimeData c.id).globalData o = (D2.runtimeData c2.id).globalData o) ∧
      (∃ (c3 : Context) (E : Compartment), createContext D (some page2) = .ok (c3, E) ∧
        ∀ o, o < C.numGlobalBytes →
          (E.runtimeData c.id).globalData o = (E.runtimeData c3.id).globalData o) := by
  refine ⟨_, _, rfl, ?_, rfl, rfl, ⟨_, _, rfl, ?_⟩, ⟨_, _, rfl, ?_⟩⟩
  · intro o ho
    simp [setRuntimeData, memcpy, ho]
  · intro o ho
    simp [setRuntimeData, memcpy, ho]
  · intro o ho
    simp [setRuntimeData, memcpy, ho]

/-- C5: `cloneContext` of a live context returns, when the page commit succeeds,
a new context appended to the same compartment's context vector, with an id
different from the source's; its global data equals the source's, as it is at
the time of the call, on every byte below `numGlobalBytes`, and the source's
page is unchanged. -/
theorem cloneContext_copies_source_global_data (C : Compartment) (ctx : Context)
    (page : ContextRuntimeData)
    (hlive : C.contexts[ctx.id]? = some (some ctx)) :
    ∃ (c : Context) (D : Compartment), cloneContext C ctx (some page) = .ok (c, D) ∧
      D.contexts = C.contexts ++ [some c] ∧
      c.id = C.contexts.length ∧
      c.id ≠ ctx.id ∧
      (∀ o, o < C.numGlobalBytes →
        (D.runtimeData c.id).globalData o = (C.runtimeData ctx.id).globalData o) ∧
      D.runtimeData ctx.id = C.runtimeData ctx.id ∧
      D.numGlobalBytes = C.numGlobalBytes := by
  have hlt : ctx.id < C.contexts.length := by
    by_contra hge
    rw [List.getElem?_eq_none (by omega)] at hlive
    cases hlive
  have hne : ¬ ctx.id = C.contexts.length := by omega
  refine ⟨⟨C.contexts.length⟩, _, rfl, rfl, rfl, ?_, ?_, ?_, rfl⟩
  · simp only; omega
  · intro o ho
    simp [setRuntimeData, memcpy, ho, hne]
  · simp [setRuntimeData, hne]

/-- C5, at a concrete input: cloning context 0 of a compartment whose only
context it is. -/
theorem cloneContext_copies_source_global_data_witness :
    ∃ (c : Context) (D : Compartment),
      cloneContext (compartmentWith 8 [some ⟨0⟩]) ⟨0⟩ (some zeroPage) = .ok (c, D) ∧
      D.contexts = (compartmentWith 8 [some ⟨0⟩]).contexts ++ [some c] ∧
      c.id = (compartmentWith 8 [some ⟨0⟩]).contexts.length ∧
      c.id ≠ (⟨0⟩ : Context).id ∧
      (∀ o, o < (compartmentWith 8 [some ⟨0⟩]).numGlobalBytes →
        (D.runtimeData c.id).globalData o
          = ((compartmentWith 8 [some ⟨0⟩]).runtimeData (⟨0⟩ : Context).id).globalData o) ∧
      D.runtimeData (⟨0⟩ : Context).id
        = (compartmentWith 8 [some ⟨0⟩]).runtimeData (⟨0⟩ : Context).id ∧
      D.numGlobalBytes = (compartmentWith 8 [some ⟨0⟩]).numGlobalBytes :=
  cloneContext_copies_source_global_data (compartmentWith 8 [some ⟨0⟩]) ⟨0⟩ zeroPage rfl

/-- Loading the union from the offset it was just stored to gives it back. -/
theorem load_store_same (base : Memory) (offset : Nat) (value : UntaggedValue) :
    loadUntaggedValue (storeUntaggedValue base offset value) offset = value := by
  apply UntaggedValue.ext
  funext i
  have hlt : i.val < untaggedValueBytes := i.isLt
  simp [loadUntaggedValue, storeUntaggedValue, memcpy, UntaggedValue.toMemory, hlt]

/-- The result of `setGlobalValue` when its assertions hold. -/
theorem setGlobalValue_ok (maxGlobalBytes : Nat) (C : Compartment) (ctx : Context)
    (g : GlobalInstance) (v : Value)
    (hmut : g.type.isMutable = true) (hty : v.type = g.type.valueType)
    (hpage : g.mutableDataOffset + untaggedValueBytes ≤ maxGlobalBytes) :
    setGlobalValue maxGlobalBytes C (some ctx) g v =
      .ok (⟨g.type.valueType,
          loadUntaggedValue (C.runtimeData ctx.id).globalData g.mutableDataOffset⟩,
        { C with
          runtimeData := setRuntimeData C.runtimeData ctx.id
            { C.runtimeData ctx.id with
              globalData := storeUntaggedValue (C.runtimeData ctx.id).globalData
                g.mutableDataOffset v.payload } }) := by
  simp only [setGlobalValue, hty, hmut, ne_eq, not_true_eq_false, if_false, Bool.true_eq_false]
  rw [if_neg (by omega)]

/-- Where the value union of the global ends inside `globalData`: for a
context, a mutable global and a value of the global's type, `setGlobalValue`
returns, and what it returns is exactly what `getGlobalValue` returned in the
state before the call; its tag is the global's value type. -/
theorem setGlobalValue_returns_previous_value_in_page (maxGlobalBytes : Nat)
    (C : Compartment) (ctx : Context) (g : GlobalInstance) (v : Value)
    (hmut : g.type.isMutable = true)
    (hty : v.type = g.type.valueType)
    (hpage : g.mutableDataOffset + untaggedValueBytes ≤ maxGlobalBytes) :
    ∃ (previous : Value) (D : Compartment),
      setGlobalValue maxGlobalBytes C (some ctx) g v = .ok (previous, D) ∧
      getGlobalValue maxGlobalBytes C (some ctx) g = .ok previous ∧
      previous.type = g.type.valueType := by
  refine ⟨_, _, setGlobalValue_ok maxGlobalBytes C ctx g v hmut hty hpage, ?_, rfl⟩
  simp only [getGlobalValue, hmut]
  rw [if_neg (by omega)]

/-- An `i32` global at offset 4 of context 0, in global data of 3840 bytes. -/
theorem setGlobalValue_returns_previous_value_in_page_witness :
    ∃ (previous : Value) (D : Compartment),
      setGlobalValue 3840 (compartmentWith 8 [some ⟨0⟩]) (some ⟨0⟩)
        ⟨⟨.i32, true⟩, 4, (valueOfBytes .i32 []).payload⟩ (valueOfBytes .i32 [9])
        = .ok (previous, D) ∧
      getGlobalValue 3840 (compartmentWith 8 [some ⟨0⟩]) (some ⟨0⟩)
        ⟨⟨.i32, true⟩, 4, (valueOfBytes .i32 []).payload⟩ = .ok previous ∧
      previous.type = (⟨⟨.i32, true⟩, 4, (valueOfBytes .i32 []).payload⟩ : GlobalInstance).type.valueType :=
  setGlobalValue_returns_previous_value_in_page 3840 (compartmentWith 8 [some ⟨0⟩]) ⟨0⟩
    ⟨⟨.i32, true⟩, 4, (valueOfBytes .i32 []).payload⟩ (valueOfBytes .i32 [9]) rfl rfl
    (by decide)

/-- C6 fails in the code: with 3828 of the 3840 bytes of global data in use,
`createGlobal` makes a mutable `i32` global at offset 3828 (3828 + 4 < 3840);
`getGlobalValue` and `setGlobalValue` of that global with an `i32` value both
access the 16 bytes of the value union from offset 3828, past the end of
`globalData`, so `setGlobalValue` returns no previous value. -/
theorem setGlobalValue_of_new_global_leaves_the_array :
    ∃ (D : Compartment) (g : GlobalInstance),
      createGlobal 3840 typeByteWidth (some (compartmentWith 3828 [some ⟨0⟩])) ⟨.i32, true⟩
        (valueOfBytes .i32 [7]) = .ok (some D, some g) ∧
      g.type = ⟨.i32, true⟩ ∧ g.mutableDataOffset = 3828 ∧
      3840 < g.mutableDataOffset + untaggedValueBytes ∧
      getGlobalValue 3840 D (some ⟨0⟩) g = .outOfBounds ∧
      setGlobalValue 3840 D (some ⟨0⟩) g (valueOfBytes .i32 [9]) = .outOfBounds :=
  ⟨_, _, rfl, rfl, rfl, by decide, rfl, rfl⟩

/-- Read after write, where the value union of the global ends inside
`globalData`.  After `setGlobalValue` of a value of the global's type into a
mutable global, `getGlobalValue` in the same context returns that value: the
tag is the global's value type and the whole payload is the one stored, so in
particular the bytes of the type's width. -/
theorem getGlobalValue_after_setGlobalValue_in_page (maxGlobalBytes : Nat)
    (C : Compartment) (ctx : Context) (g : GlobalInstance) (v : Value)
    (hmut : g.type.isMutable = true)
    (hty : v.type = g.type.valueType)
    (hpage : g.mutableDataOffset + untaggedValueBytes ≤ maxGlobalBytes) :
    ∃ (previous : Value) (D : Compartment),
      setGlobalValue maxGlobalBytes C (some ctx) g v = .ok (previous, D) ∧
      getGlobalValue maxGlobalBytes D (some ctx) g = .ok v ∧
      v.type = g.type.valueType ∧
      ∀ width : Nat, ∃ r : Value,
        getGlobalValue maxGlobalBytes D (some ctx) g = .ok r ∧ r.sameOnWidth width v := by
  have hget : getGlobalValue maxGlobalBytes
      { C with
        runtimeData := setRuntimeData C.runtimeData ctx.id
          { C.runtimeData ctx.id with
            globalData := storeUntaggedValue (C.runtimeData ctx.id).globalData
              g.mutableDataOffset v.payload } } (some ctx) g = .ok v := by
    simp only [getGlobalValue, hmut]
    rw [if_neg (by omega)]
    simp only [setRuntimeData, if_true, load_store_same, ← hty]
  exact ⟨_, _, setGlobalValue_ok maxGlobalBytes C ctx g v hmut hty hpage, hget, hty,
    fun _ => ⟨v, hget, rfl, fun _ _ => rfl⟩⟩

/-- An `i32` global at offset 4 of context 0, in global data of 3840 bytes. -/
theorem getGlobalValue_after_setGlobalValue_in_page_witness :
    ∃ (previous : Value) (D : Compartment),
      setGlobalValue 3840 (compartmentWith 8 [some ⟨0⟩]) (some ⟨0⟩)
        ⟨⟨.i32, true⟩, 4, (valueOfBytes .i32 []).payload⟩ (valueOfBytes .i32 [9])
        = .ok (previous, D) ∧
      getGlobalValue 3840 D (some ⟨0⟩) ⟨⟨.i32, true⟩, 4, (valueOfBytes .i32 []).payload⟩
        = .ok (valueOfBytes .i32 [9]) ∧
      (valueOfBytes .i32 [9]).type
        = (⟨⟨.i32, true⟩, 4, (valueOfBytes .i32 []).payload⟩ : GlobalInstance).type.valueType ∧
      ∀ width : Nat, ∃ r : Value,
        getGlobalValue 3840 D (some ⟨0⟩) ⟨⟨.i32, true⟩, 4, (valueOfBytes .i32 []).payload⟩
          = .ok r ∧
        r.sameOnWidth width (valueOfBytes .i32 [9]) :=
  getGlobalValue_after_setGlobalValue_in_page 3840 (compartmentWith 8 [some ⟨0⟩]) ⟨0⟩
    ⟨⟨.i32, true⟩, 4, (valueOfBytes .i32 []).payload⟩ (valueOfBytes .i32 [9]) rfl rfl
    (by decide)

/-- C7 fails in the code: with 3832 of the 3840 bytes of global data in use,
`createGlobal` makes a mutable `f32` global at offset 3832 (3832 + 4 < 3840);
`setGlobalValue` of an `f32` value into it stores the 16 bytes of the value
union from offset 3832, past the end of `globalData`: the call does not return,
in no compartment state, so no `getGlobalValue` after it reads the value
back. -/
theorem setGlobalValue_store_leaves_the_array :
    ∃ (D : Compartment) (g : GlobalInstance),
      createGlobal 3840 typeByteWidth (some (compartmentWith 3832 [some ⟨0⟩])) ⟨.f32, true⟩
        (valueOfBytes .f32 [1]) = .ok (some D, some g) ∧
      g.type = ⟨.f32, true⟩ ∧ g.mutableDataOffset = 3832 ∧
      3840 < g.mutableDataOffset + untaggedValueBytes ∧
      setGlobalValue 3840 D (some ⟨0⟩) g (valueOfBytes .f32 [9]) = .outOfBounds ∧
      ∀ (previous : Value) (E : Compartment),
        setGlobalValue 3840 D (some ⟨0⟩) g (valueOfBytes .f32 [9]) ≠ .ok (previous, E) :=
  ⟨_, _, rfl, rfl, rfl, by decide, rfl, fun _ _ h => nomatch h⟩

end Runtime

namespace Runtime

/-- C8: `createGlobal` of an immutable global with an initial value of its
type returns a global, with or without a compartment, and returns the
compartment as it was; `getGlobalValue` of that global returns the initial value
in every compartment state and for every context, the null context included.
With a mutable type and no compartment the call is a fatal error. -/
theorem createGlobal_immutable_needs_no_compartment
    (maxGlobalBytes : Nat) (getTypeByteWidth : ValueType → Nat)
    (compartment : Option Compartment) (type : GlobalType) (initialValue : Value)
    (himm : type.isMutable = false)
    (hty : initialValue.type = type.valueType) :
    (∃ g : GlobalInstance,
      createGlobal maxGlobalBytes getTypeByteWidth compartment type initialValue
        = .ok (compartment, some g) ∧
      ∀ (C : Compartment) (ctx : Option Context),
        getGlobalValue maxGlobalBytes C ctx g = .ok initialValue) ∧
    createGlobal maxGlobalBytes getTypeByteWidth none ⟨type.valueType, true⟩ initialValue
      = .fatalError := by
  refine ⟨⟨⟨type, u32 (2 ^ 32 - 1), initialValue.payload⟩, ?_, ?_⟩, ?_⟩
  · simp [createGlobal, hty, himm]
  · intro C ctx
    simp [getGlobalValue, himm, ← hty]
  · simp [createGlobal, hty]

/-- C8, at a concrete input: an immutable `i64` global created without a
compartment. -/
theorem createGlobal_immutable_needs_no_compartment_witness :
    (∃ g : GlobalInstance,
      createGlobal 3840 typeByteWidth none ⟨.i64, false⟩ (valueOfBytes .i64 [1, 2])
        = .ok (none, some g) ∧
      ∀ (C : Compartment) (ctx : Option Context),
        getGlobalValue 3840 C ctx g = .ok (valueOfBytes .i64 [1, 2])) ∧
    createGlobal 3840 typeByteWidth none ⟨(⟨.i64, false⟩ : GlobalType).valueType, true⟩
      (valueOfBytes .i64 [1, 2]) = .fatalError :=
  createGlobal_immutable_needs_no_compartment 3840 typeByteWidth none ⟨.i64, false⟩
    (valueOfBytes .i64 [1, 2]) rfl rfl

/-- The Boolean comparison of optional maxima is the order of the extended
natural numbers. -/
theorem maxWithin_iff (sub super : Option Nat) :
    maxWithin sub super = true ↔ maxOrInfinity sub ≤ maxOrInfinity super := by
  cases sub <;> cases super <;> simp [maxWithin, maxOrInfinity]

/-- C9: `isA` holds exactly when the object satisfies the typing rule of the
specification, and in particular it is false whenever the kinds differ. -/
theorem isA_iff_satisfiesType (object : Object) (type : ObjectType) :
    (isA object type = true ↔ satisfiesType object type) ∧
    (object.kind ≠ type.kind → isA object type = false) := by
  cases object <;> cases type <;>
    first
    | (simp [isA, satisfiesType, Object.kind, ObjectType.kind, TableType.isSubset,
        MemoryType.isSubset, maxWithin_iff]; done)
    | (simp only [isA, satisfiesType, Object.kind, ObjectType.kind, ne_eq, not_true_eq_false,
        if_false, decide_eq_true_eq, true_and, false_implies, and_true]
       exact eq_comm)

end Runtime

namespace Runtime

/-- What `createContext` returns when the page commit succeeds. -/
theorem createContext_inv (C D : Compartment) (page : ContextRuntimeData) (ctx : Context)
    (h : createContext C (some page) = .ok (ctx, D)) :
    ctx = ⟨C.contexts.length⟩ ∧ D.contexts = C.contexts ++ [some ctx] := by
  simp only [createContext, Outcome.ok.injEq, Prod.mk.injEq] at h
  obtain ⟨hc, hD⟩ := h
  subst hc hD
  exact ⟨rfl, rfl⟩

/-- What `cloneContext` returns when the page commit succeeds. -/
theorem cloneContext_inv (C D : Compartment) (source : Context) (page : ContextRuntimeData)
    (ctx : Context) (h : cloneContext C source (some page) = .ok (ctx, D)) :
    ctx = ⟨C.contexts.length⟩ ∧ D.contexts = C.contexts ++ [some ctx] := by
  simp only [cloneContext, createContext, Outcome.ok.injEq, Prod.mk.injEq] at h
  obtain ⟨hc, hD⟩ := h
  subst hc hD
  exact ⟨rfl, rfl⟩

/-- Appending a context whose id is the length of the vector keeps every
occupied slot's id equal to its index. -/
theorem SlotsMatchIds_append (contexts : List (Option Context))
    (h : SlotsMatchIds contexts) :
    SlotsMatchIds (contexts ++ [some ⟨contexts.length⟩]) := by
  intro i c hi
  by_cases hlt : i < contexts.length
  · rw [List.getElem?_append_left hlt] at hi
    exact h i c hi
  · rw [List.getElem?_append_right (by omega)] at hi
    by_cases h0 : i - contexts.length = 0
    · rw [h0] at hi
      simp only [List.getElem?_cons_zero, Option.some.injEq] at hi
      subst hi
      simp only
      omega
    · obtain ⟨m, hm⟩ := Nat.exists_eq_succ_of_ne_zero h0
      rw [hm] at hi
      simp at hi

/-- Nulling a slot keeps every occupied slot's id equal to its index. -/
theorem SlotsMatchIds_set_none (contexts : List (Option Context)) (id : Nat)
    (h : SlotsMatchIds contexts) : SlotsMatchIds (contexts.set id none) := by
  intro i c hi
  by_cases hid : id = i
  · subst hid
    rw [List.getElem?_set_self'] at hi
    cases hget : contexts[id]? <;> simp [hget] at hi
  · rw [List.getElem?_set_ne hid] at hi
    exact h i c hi

/-- One context operation keeps every occupied slot's id equal to its index. -/
theorem contextStep_slotsMatchIds {C D : Compartment} (hstep : ContextStep C D)
    (h : SlotsMatchIds C.contexts) : SlotsMatchIds D.contexts := by
  cases hstep with
  | create _ page ctx hc =>
    obtain ⟨hctx, hD⟩ := createContext_inv C D page ctx hc
    rw [hD, hctx]
    exact SlotsMatchIds_append _ h
  | clone _ source page ctx hc =>
    obtain ⟨hctx, hD⟩ := cloneContext_inv C D source page ctx hc
    rw [hD, hctx]
    exact SlotsMatchIds_append _ h
  | finalize ctx _ =>
    exact SlotsMatchIds_set_none _ _ h

/-- One context operation never shortens the vector, and leaves each existing
slot as it was or null. -/
theorem contextStep_keeps_slots {C D : Compartment} (hstep : ContextStep C D) :
    C.contexts.length ≤ D.contexts.length ∧
    ∀ i, i < C.contexts.length →
      D.contexts[i]? = C.contexts[i]? ∨ D.contexts[i]? = some none := by
  cases hstep with
  | create _ page ctx hc =>
    obtain ⟨_, hD⟩ := createContext_inv C D page ctx hc
    rw [hD]
    refine ⟨by simp, fun i hi => Or.inl (List.getElem?_append_left hi)⟩
  | clone _ source page ctx hc =>
    obtain ⟨_, hD⟩ := cloneContext_inv C D source page ctx hc
    rw [hD]
    refine ⟨by simp, fun i hi => Or.inl (List.getElem?_append_left hi)⟩
  | finalize ctx _ =>
    refine ⟨by simp [Context.finalize], fun i hi => ?_⟩
    by_cases hid : ctx.id = i
    · right
      subst hid
      simp only [Context.finalize]
      exact List.getElem?_set_self hi
    · left
      simp only [Context.finalize]
      exact List.getElem?_set_ne hid

/-- Any sequence of context operations never shortens the vector, and leaves
each existing slot as it was or null. -/
theorem contextSteps_keep_slots {C D : Compartment} (hsteps : ContextSteps C D) :
    C.contexts.length ≤ D.contexts.length ∧
    ∀ i, i < C.contexts.length →
      D.contexts[i]? = C.contexts[i]? ∨ D.contexts[i]? = some none := by
  induction hsteps with
  | refl => exact ⟨le_refl _, fun _ _ => Or.inl rfl⟩
  | tail _ hstep ih =>
    obtain ⟨hlen, hslots⟩ := ih
    obtain ⟨hlen2, hslots2⟩ := contextStep_keeps_slots hstep
    refine ⟨le_trans hlen hlen2, fun i hi => ?_⟩
    rcases hslots2 i (by omega) with h2 | h2
    · rcases hslots i hi with h1 | h1
      · exact Or.inl (h2.trans h1)
      · exact Or.inr (h2.trans h1)
    · exact Or.inr h2

/-- C10: in every compartment state reached from a compartment without
contexts by `createContext`, `cloneContext` and `Context::finalize`, each slot of
the context vector is null or holds a context whose id is the slot's index;
`createContext` returns a context whose id is the previous length of the vector
and appends it; `finalize` keeps the length and changes only the finalized
context's slot, which it nulls; and in every later state each existing slot
holds what it held or null, so no id passes to a different context. -/
theorem context_ids_unique_and_stable (C0 C : Compartment)
    (hfresh : C0.contexts = [])
    (hreach : ContextSteps C0 C) :
    SlotsMatchIds C.contexts ∧
    (∀ page : ContextRuntimeData, ∃ (ctx : Context) (D : Compartment),
      createContext C (some page) = .ok (ctx, D) ∧ ctx.id = C.contexts.length ∧
      D.contexts = C.contexts ++ [some ctx]) ∧
    (∀ ctx : Context,
      (ctx.finalize C).contexts.length = C.contexts.length ∧
      (ctx.id < C.contexts.length → (ctx.finalize C).contexts[ctx.id]? = some none) ∧
      ∀ i, i ≠ ctx.id → (ctx.finalize C).contexts[i]? = C.contexts[i]?) ∧
    (∀ D : Compartment, ContextSteps C D →
      C.contexts.length ≤ D.contexts.length ∧
      ∀ i, i < C.contexts.length →
        D.contexts[i]? = C.contexts[i]? ∨ D.contexts[i]? = some none) := by
  refine ⟨?_, ?_, ?_, fun D hD => contextSteps_keep_slots hD⟩
  · induction hreach with
    | refl =>
      intro i c hi
      rw [hfresh] at hi
      simp at hi
    | tail _ hstep ih => exact contextStep_slotsMatchIds hstep ih
  · intro page
    exact ⟨⟨C.contexts.length⟩, _, rfl, rfl, rfl⟩
  · intro ctx
    refine ⟨by simp [Context.finalize], fun hlt => ?_, fun i hi => ?_⟩
    · simp only [Context.finalize]
      exact List.getElem?_set_self hlt
    · simp only [Context.finalize]
      exact List.getElem?_set_ne (Ne.symm hi)

end Runtime

namespace Runtime

/-- C10, at a concrete input: a compartment in which one context was created
and then finalized. -/
theorem context_ids_unique_and_stable_witness :
    SlotsMatchIds ((⟨0⟩ : Context).finalize oneContextCompartment).contexts ∧
    (∀ page : ContextRuntimeData, ∃ (ctx : Context) (D : Compartment),
      createContext ((⟨0⟩ : Context).finalize oneContextCompartment) (some page) = .ok (ctx, D) ∧
      ctx.id = ((⟨0⟩ : Context).finalize oneContextCompartment).contexts.length ∧
      D.contexts = ((⟨0⟩ : Context).finalize oneContextCompartment).contexts ++ [some ctx]) ∧
    (∀ ctx : Context,
      (ctx.finalize ((⟨0⟩ : Context).finalize oneContextCompartment)).contexts.length
        = ((⟨0⟩ : Context).finalize oneContextCompartment).contexts.length ∧
      (ctx.id < ((⟨0⟩ : Context).finalize oneContextCompartment).contexts.length →
        (ctx.finalize ((⟨0⟩ : Context).finalize oneContextCompartment)).contexts[ctx.id]?
          = some none) ∧
      ∀ i, i ≠ ctx.id →
        (ctx.finalize ((⟨0⟩ : Context).finalize oneContextCompartment)).contexts[i]?
          = ((⟨0⟩ : Context).finalize oneContextCompartment).contexts[i]?) ∧
    (∀ D : Compartment, ContextSteps ((⟨0⟩ : Context).finalize oneContextCompartment) D →
      ((⟨0⟩ : Context).finalize oneContextCompartment).contexts.length ≤ D.contexts.length ∧
      ∀ i, i < ((⟨0⟩ : Context).finalize oneContextCompartment).contexts.length →
        D.contexts[i]? = ((⟨0⟩ : Context).finalize oneContextCompartment).contexts[i]? ∨
        D.contexts[i]? = some none) :=
  context_ids_unique_and_stable (compartmentWith 0 [])
    ((⟨0⟩ : Context).finalize oneContextCompartment) rfl
    (Relation.ReflTransGen.tail
      (Relation.ReflTransGen.single
        (ContextStep.create (compartmentWith 0 []) oneContextCompartment zeroPage ⟨0⟩ rfl))
      (ContextStep.finalize oneContextCompartment ⟨0⟩ (by decide)))

end Runtime

namespace Runtime

/-! ## The layout of the thunk arguments -/

/-- Masking a number of `n` bits with the complement of `2^k - 1` rounds it
down to a multiple of `2^k`. -/
theorem and_mask_two_pow (n k x : Nat) (hx : x < 2 ^ n) (hk : k ≤ n) :
    x &&& (2 ^ n - 2 ^ k) = 2 ^ k * (x / 2 ^ k) := by
  have hpos : 0 < 2 ^ k := Nat.two_pow_pos k
  have hle : 2 ^ k ≤ 2 ^ n := Nat.pow_le_pow_right (by decide) hk
  have hlt : 2 ^ k - 1 < 2 ^ n := by omega
  have h1 : 2 ^ n - 2 ^ k = 2 ^ n - ((2 ^ k - 1) + 1) := by omega
  apply Nat.eq_of_testBit_eq
  intro i
  rw [Nat.testBit_and, h1, Nat.testBit_two_pow_sub_succ hlt, Nat.testBit_two_pow_sub_one,
    Nat.testBit_mul_pow_two, ← Nat.shiftRight_eq_div_pow, Nat.testBit_shiftRight]
  by_cases hik : k ≤ i
  · have hki : k + (i - k) = i := by omega
    by_cases hin : i < n
    · simp [hik, hin, hki, Nat.not_lt.mpr hik]
    · have hx2 : x < 2 ^ i := lt_of_lt_of_le hx (Nat.pow_le_pow_right (by decide) (by omega))
      simp [hik, hin, hki, Nat.testBit_lt_two_pow hx2]
  · have : i < k := by omega
    simp [hik, this]

/-- The rounding of `invokeFunctionUnchecked` is rounding up to a multiple of
16, as long as the addition does not wrap. -/
theorem alignArgDataOffset_eq (x : Nat) (hx : x + 15 < 2 ^ 64) :
    alignArgDataOffset x = (x + 15) / 16 * 16 := by
  unfold alignArgDataOffset uptr
  rw [Nat.mod_eq_of_lt hx]
  have h := and_mask_two_pow 64 4 (x + 15) hx (by decide)
  have h16 : (2 : Nat) ^ 4 = 16 := by decide
  rw [h16] at h
  rw [h, Nat.mul_comm]

/-- The argument loop throws exactly when some slot would start at or after
the end of the buffer, and otherwise leaves the buffer that copying each
argument to the offset of its slot gives. -/
theorem copyArguments_eq (maxBytes : Nat) (getTypeByteWidth : ValueType → Nat)
    (arguments : Nat → UntaggedValue) (hmax : maxBytes + 32 ≤ 2 ^ 64)
    (parameters : List ValueType) :
    ∀ (argumentIndex : Nat) (argData : Memory) (start : Nat), start ≤ maxBytes + 16 →
      copyArguments maxBytes getTypeByteWidth arguments parameters argumentIndex argData start
        = if ∀ o ∈ slotOffsetsFrom start parameters, o < maxBytes then
            some (copyToSlots getTypeByteWidth arguments parameters
              (slotOffsetsFrom start parameters) argumentIndex argData)
          else none := by
  induction parameters with
  | nil => intro _ _ _ _; simp [copyArguments, slotOffsetsFrom, copyToSlots]
  | cons type rest ih =>
    intro argumentIndex argData start hstart
    have halign : alignArgDataOffset start = (start + 15) / 16 * 16 :=
      alignArgDataOffset_eq start (by omega)
    have hoff : (if type = .v128 then alignArgDataOffset start else start)
        = (if type = .v128 then (start + 15) / 16 * 16 else start) := by rw [halign]
    have hbound : (if type = .v128 then (start + 15) / 16 * 16 else start) ≤ start + 15 := by
      split
      · exact Nat.div_mul_le_self _ _
      · omega
    simp only [copyArguments, slotOffsetsFrom, copyToSlots, hoff, argSlotBytes,
      List.forall_mem_cons]
    by_cases hge : (if type = .v128 then (start + 15) / 16 * 16 else start) ≥ maxBytes
    · have hnot : ¬ (if type = .v128 then (start + 15) / 16 * 16 else start) < maxBytes := by
        omega
      simp [hge, hnot]
    · have hlt : (if type = .v128 then (start + 15) / 16 * 16 else start) < maxBytes := by omega
      have hslot : (if type = .v128 then 16 else 8) ≤ 16 := by split <;> omega
      have hu : uptr ((if type = .v128 then (start + 15) / 16 * 16 else start)
          + (if type = .v128 then 16 else 8))
          = (if type = .v128 then (start + 15) / 16 * 16 else start)
            + (if type = .v128 then 16 else 8) := by
        unfold uptr
        exact Nat.mod_eq_of_lt (by omega)
      rw [if_neg hge, hu, ih _ _ _ (by omega)]
      simp [hlt]

/-- Every slot offset is at or after the first free offset and a multiple of 8
when that is one; the offset of a `v128` argument is a multiple of 16. -/
theorem slotOffsetsFrom_aligned (parameters : List ValueType) :
    ∀ (start : Nat), start % 8 = 0 →
      ∀ (i o : Nat) (type : ValueType),
        (slotOffsetsFrom start parameters)[i]? = some o → parameters[i]? = some type →
        start ≤ o ∧ o % 8 = 0 ∧ (type = .v128 → o % 16 = 0) := by
  induction parameters with
  | nil => intro _ _ i o type h; simp [slotOffsetsFrom] at h
  | cons head rest ih =>
    intro start hstart i o type ho ht
    have hup : start ≤ (start + 15) / 16 * 16 ∧ (start + 15) / 16 * 16 % 16 = 0 := by omega
    cases i with
    | zero =>
      simp only [slotOffsetsFrom, List.getElem?_cons_zero, Option.some.injEq] at ho ht
      subst ht
      by_cases hv : head = .v128
      · simp only [hv, if_true] at ho
        subst ho
        exact ⟨hup.1, by omega, fun _ => hup.2⟩
      · simp only [hv, if_false] at ho
        subst ho
        exact ⟨le_refl _, hstart, fun h => absurd h hv⟩
    | succ j =>
      simp only [slotOffsetsFrom, List.getElem?_cons_succ] at ho ht
      have hnext : ((if head = .v128 then (start + 15) / 16 * 16 else start)
          + (if head = .v128 then 16 else 8)) % 8 = 0 := by
        split <;> omega
      obtain ⟨h1, h2, h3⟩ := ih _ hnext j o type ho ht
      refine ⟨?_, h2, h3⟩
      have : start ≤ (if head = .v128 then (start + 15) / 16 * 16 else start) := by
        split
        · exact hup.1
        · exact le_refl _
      omega

/-- The slot of an argument ends at or before the offset of every later
argument. -/
theorem slotOffsetsFrom_disjoint (parameters : List ValueType) :
    ∀ (start : Nat), start % 8 = 0 →
      ∀ (i j oi oj : Nat) (type : ValueType), i < j →
        (slotOffsetsFrom start parameters)[i]? = some oi → parameters[i]? = some type →
        (slotOffsetsFrom start parameters)[j]? = some oj →
        oi + (if type = .v128 then 16 else 8) ≤ oj := by
  induction parameters with
  | nil => intro _ _ i j oi oj type _ h; simp [slotOffsetsFrom] at h
  | cons head rest ih =>
    intro start hstart i j oi oj type hij hoi hti hoj
    have hnext : ((if head = .v128 then (start + 15) / 16 * 16 else start)
        + (if head = .v128 then 16 else 8)) % 8 = 0 := by
      split <;> omega
    cases j with
    | zero => omega
    | succ j' =>
      simp only [slotOffsetsFrom, List.getElem?_cons_succ] at hoj
      cases i with
      | zero =>
        simp only [slotOffsetsFrom, List.getElem?_cons_zero, Option.some.injEq] at hoi hti
        subst hti hoi
        cases hrest : rest[j']? with
        | none =>
          have hlen : (slotOffsetsFrom ((if head = .v128 then (start + 15) / 16 * 16 else start)
              + (if head = .v128 then 16 else 8)) rest).length = rest.length := by
            clear ih hoj hrest
            generalize ((if head = .v128 then (start + 15) / 16 * 16 else start)
              + (if head = .v128 then 16 else 8)) = s
            induction rest generalizing s with
            | nil => rfl
            | cons _ _ ih2 => simp [slotOffsetsFrom, ih2]
          have h1 := List.getElem?_eq_none_iff.mp hrest
          rw [List.getElem?_eq_none (by omega)] at hoj
          cases hoj
        | some tj =>
          exact (slotOffsetsFrom_aligned rest _ hnext j' oj tj hoj hrest).1
      | succ i' =>
        simp only [slotOffsetsFrom, List.getElem?_cons_succ] at hoi hti
        exact ih _ hnext i' j' oi oj type (by omega) hoi hti hoj

end Runtime

namespace Runtime

/-- Copying the arguments to their slots leaves the bytes below the first free
offset as they were. -/
theorem copyToSlots_below (getTypeByteWidth : ValueType → Nat)
    (arguments : Nat → UntaggedValue) (parameters : List ValueType) :
    ∀ (start argumentIndex : Nat) (argData : Memory), start % 8 = 0 →
      ∀ a, a < start →
        copyToSlots getTypeByteWidth arguments parameters (slotOffsetsFrom start parameters)
          argumentIndex argData a = argData a := by
  induction parameters with
  | nil => intro _ _ _ _ _ _; simp [copyToSlots, slotOffsetsFrom]
  | cons head rest ih =>
    intro start argumentIndex argData hstart a ha
    have hup : start ≤ (start + 15) / 16 * 16 := by omega
    have hle : start ≤ (if head = .v128 then (start + 15) / 16 * 16 else start) := by
      split
      · exact hup
      · exact le_refl _
    have hnext : ((if head = .v128 then (start + 15) / 16 * 16 else start)
        + (if head = .v128 then 16 else 8)) % 8 = 0 := by
      split <;> omega
    simp only [copyToSlots, slotOffsetsFrom]
    rw [ih _ _ _ hnext a (by omega)]
    have hna : ¬ (if head = .v128 then (start + 15) / 16 * 16 else start) ≤ a := by omega
    simp [memcpy, hna]

/-- When no argument is wider than its slot, the bytes of every argument are
at the offset of its slot after the copies. -/
theorem copyToSlots_content (getTypeByteWidth : ValueType → Nat)
    (arguments : Nat → UntaggedValue) (parameters : List ValueType) :
    ∀ (start argumentIndex : Nat) (argData : Memory), start % 8 = 0 →
      (∀ type ∈ parameters, getTypeByteWidth type ≤ argSlotBytes type) →
      ∀ (i o : Nat) (type : ValueType),
        (slotOffsetsFrom start parameters)[i]? = some o → parameters[i]? = some type →
        ∀ k, k < getTypeByteWidth type →
          copyToSlots getTypeByteWidth arguments parameters (slotOffsetsFrom start parameters)
            argumentIndex argData (o + k) = (arguments (argumentIndex + i)).toMemory k := by
  induction parameters with
  | nil => intro _ _ _ _ _ i o type h; simp [slotOffsetsFrom] at h
  | cons head rest ih =>
    intro start argumentIndex argData hstart hfit i o type ho ht k hk
    have hnext : ((if head = .v128 then (start + 15) / 16 * 16 else start)
        + (if head = .v128 then 16 else 8)) % 8 = 0 := by
      split <;> omega
    cases i with
    | zero =>
      simp only [slotOffsetsFrom, List.getElem?_cons_zero, Option.some.injEq] at ho ht
      subst ht
      have hw : getTypeByteWidth head ≤ (if head = .v128 then 16 else 8) := by
        have := hfit head (List.mem_cons_self _ _)
        simpa [argSlotBytes] using this
      simp only [copyToSlots, slotOffsetsFrom]
      rw [copyToSlots_below getTypeByteWidth arguments rest _ _ _ hnext (o + k)
        (by rw [ho]; omega)]
      rw [ho]
      simp [memcpy, hk]
    | succ j =>
      simp only [slotOffsetsFrom, List.getElem?_cons_succ] at ho ht
      simp only [copyToSlots, slotOffsetsFrom]
      have := ih _ (argumentIndex + 1) (memcpy argData
        (if head = .v128 then (start + 15) / 16 * 16 else start)
        (arguments argumentIndex).toMemory (getTypeByteWidth head)) hnext
        (fun t ht' => hfit t (List.mem_cons_of_mem _ ht')) j o type ho ht k hk
      rw [this]
      congr 2
      omega

/-- C11: when the arguments of a function type fit, the buffer that
`invokeFunctionUnchecked` hands to the invoke thunk is the argument buffer after
`getTypeByteWidth(type)` bytes of each argument were copied to the offset that
the specification's layout gives its slot.  In that layout every `v128`
argument starts at a multiple of 16, every argument starts at a multiple of 8,
the slot of an argument ends at or before the start of every later slot, and,
when no argument is wider than its slot, the bytes of argument `i` are at the
start of slot `i` when the thunk is called. -/
theorem invokeFunctionUnchecked_argument_layout
    (maxThunkArgAndReturnBytes : Nat) (getTypeByteWidth : ValueType → Nat)
    (contextRuntimeData : ContextRuntimeData) (functionType : FunctionType)
    (arguments : Nat → UntaggedValue) (argData : Memory)
    (hmax : maxThunkArgAndReturnBytes + 32 ≤ 2 ^ 64)
    (hfit : copyArguments maxThunkArgAndReturnBytes getTypeByteWidth arguments
      functionType.parameters 0 contextRuntimeData.thunkArgAndReturnData 0 = some argData) :
    argData = copyToSlots getTypeByteWidth arguments functionType.parameters
      (slotOffsets functionType.parameters) 0 contextRuntimeData.thunkArgAndReturnData ∧
    (∀ invokeThunk : ContextRuntimeData → Except Exception ContextRuntimeData,
      invokeFunctionUnchecked maxThunkArgAndReturnBytes getTypeByteWidth invokeThunk
        contextRuntimeData functionType arguments
        = (invokeThunk { contextRuntimeData with thunkArgAndReturnData := argData }).map
            (fun returned => returned.thunkArgAndReturnData)) ∧
    (∀ (i o : Nat) (type : ValueType),
      (slotOffsets functionType.parameters)[i]? = some o →
      functionType.parameters[i]? = some type →
      o % 8 = 0 ∧ (type = .v128 → o % 16 = 0)) ∧
    (∀ (i j oi oj : Nat) (type : ValueType), i < j →
      (slotOffsets functionType.parameters)[i]? = some oi →
      functionType.parameters[i]? = some type →
      (slotOffsets functionType.parameters)[j]? = some oj →
      oi + (if type = .v128 then 16 else 8) ≤ oj) ∧
    ((∀ type ∈ functionType.parameters, getTypeByteWidth type ≤ argSlotBytes type) →
      ∀ (i o : Nat) (type : ValueType),
        (slotOffsets functionType.parameters)[i]? = some o →
        functionType.parameters[i]? = some type →
        ∀ k, k < getTypeByteWidth type → argData (o + k) = (arguments i).toMemory k) := by
  have heq := copyArguments_eq maxThunkArgAndReturnBytes getTypeByteWidth arguments hmax
    functionType.parameters 0 contextRuntimeData.thunkArgAndReturnData 0 (by omega)
  rw [hfit] at heq
  have hdata : argData = copyToSlots getTypeByteWidth arguments functionType.parameters
      (slotOffsets functionType.parameters) 0 contextRuntimeData.thunkArgAndReturnData := by
    split at heq
    · exact Option.some.inj heq
    · cases heq
  refine ⟨hdata, ?_, ?_, ?_, ?_⟩
  · intro invokeThunk
    simp only [invokeFunctionUnchecked, hfit]
    cases invokeThunk { contextRuntimeData with thunkArgAndReturnData := argData } <;> rfl
  · intro i o type ho ht
    have := slotOffsetsFrom_aligned functionType.parameters 0 rfl i o type ho ht
    exact ⟨this.2.1, this.2.2⟩
  · intro i j oi oj type hij hoi hti hoj
    exact slotOffsetsFrom_disjoint functionType.parameters 0 rfl i j oi oj type hij hoi hti hoj
  · intro hwidth i o type ho ht k hk
    rw [hdata]
    have := copyToSlots_content getTypeByteWidth arguments functionType.parameters 0 0
      contextRuntimeData.thunkArgAndReturnData rfl hwidth i o type ho ht k hk
    simpa [slotOffsets] using this

/-- C11, at a concrete input: the parameters `(i32, v128, i64)` in a buffer of
256 bytes get the offsets 0, 16 and 32. -/
theorem invokeFunctionUnchecked_argument_layout_witness :
    slotOffsets [.i32, .v128, .i64] = [0, 16, 32] ∧
    (copyToSlots typeByteWidth (fun _ => (valueOfBytes .i32 [7]).payload) [.i32, .v128, .i64]
        [0, 16, 32] 0 zeroMemory
      = copyToSlots typeByteWidth (fun _ => (valueOfBytes .i32 [7]).payload)
          (⟨.i32, [.i32, .v128, .i64]⟩ : FunctionType).parameters
          (slotOffsets (⟨.i32, [.i32, .v128, .i64]⟩ : FunctionType).parameters) 0
          zeroPage.thunkArgAndReturnData ∧
    (∀ invokeThunk : ContextRuntimeData → Except Exception ContextRuntimeData,
      invokeFunctionUnchecked 256 typeByteWidth invokeThunk zeroPage
        ⟨.i32, [.i32, .v128, .i64]⟩ (fun _ => (valueOfBytes .i32 [7]).payload)
        = (invokeThunk { zeroPage with
            thunkArgAndReturnData :=
              copyToSlots typeByteWidth (fun _ => (valueOfBytes .i32 [7]).payload)
                [.i32, .v128, .i64] [0, 16, 32] 0 zeroMemory }).map
            (fun returned => returned.thunkArgAndReturnData)) ∧
    (∀ (i o : Nat) (type : ValueType),
      (slotOffsets (⟨.i32, [.i32, .v128, .i64]⟩ : FunctionType).parameters)[i]? = some o →
      (⟨.i32, [.i32, .v128, .i64]⟩ : FunctionType).parameters[i]? = some type →
      o % 8 = 0 ∧ (type = .v128 → o % 16 = 0)) ∧
    (∀ (i j oi oj : Nat) (type : ValueType), i < j →
      (slotOffsets (⟨.i32, [.i32, .v128, .i64]⟩ : FunctionType).parameters)[i]? = some oi →
      (⟨.i32, [.i32, .v128, .i64]⟩ : FunctionType).parameters[i]? = some type →
      (slotOffsets (⟨.i32, [.i32, .v128, .i64]⟩ : FunctionType).parameters)[j]? = some oj →
      oi + (if type = .v128 then 16 else 8) ≤ oj) ∧
    ((∀ type ∈ (⟨.i32, [.i32, .v128, .i64]⟩ : FunctionType).parameters,
        typeByteWidth type ≤ argSlotBytes type) →
      ∀ (i o : Nat) (type : ValueType),
        (slotOffsets (⟨.i32, [.i32, .v128, .i64]⟩ : FunctionType).parameters)[i]? = some o →
        (⟨.i32, [.i32, .v128, .i64]⟩ : FunctionType).parameters[i]? = some type →
        ∀ k, k < typeByteWidth type →
          copyToSlots typeByteWidth (fun _ => (valueOfBytes .i32 [7]).payload)
            [.i32, .v128, .i64] [0, 16, 32] 0 zeroMemory (o + k)
            = ((fun _ => (valueOfBytes .i32 [7]).payload) i : UntaggedValue).toMemory k)) :=
  ⟨by decide,
    invokeFunctionUnchecked_argument_layout 256 typeByteWidth zeroPage
      ⟨.i32, [.i32, .v128, .i64]⟩ (fun _ => (valueOfBytes .i32 [7]).payload)
      (copyToSlots typeByteWidth (fun _ => (valueOfBytes .i32 [7]).payload) [.i32, .v128, .i64]
        [0, 16, 32] 0 zeroMemory)
      (by decide) rfl⟩

end Runtime

namespace Runtime

/-- The bytes needed are at least the first free offset. -/
theorem le_slotBytesNeededFrom (parameters : List ValueType) :
    ∀ start : Nat, start ≤ slotBytesNeededFrom start parameters := by
  induction parameters with
  | nil => intro start; exact le_refl _
  | cons head rest ih =>
    intro start
    have h := ih ((if head = .v128 then (start + 15) / 16 * 16 else start)
      + (if head = .v128 then 16 else 8))
    have hle : start ≤ (if head = .v128 then (start + 15) / 16 * 16 else start) := by
      split <;> omega
    simp only [slotBytesNeededFrom]
    omega

/-- In a buffer whose size is a multiple of 16, every slot starts inside the
buffer exactly when the slots need no more bytes than the buffer has. -/
theorem slots_start_inside_iff (maxBytes : Nat) (h16 : maxBytes % 16 = 0)
    (parameters : List ValueType) :
    ∀ start : Nat, start % 8 = 0 → start ≤ maxBytes →
      ((∀ o ∈ slotOffsetsFrom start parameters, o < maxBytes)
        ↔ slotBytesNeededFrom start parameters ≤ maxBytes) := by
  induction parameters with
  | nil => intro start _ hle; simp [slotOffsetsFrom, slotBytesNeededFrom, hle]
  | cons head rest ih =>
    intro start hstart hle
    have hup : (start + 15) / 16 * 16 % 16 = 0 := by omega
    simp only [slotOffsetsFrom, slotBytesNeededFrom, List.forall_mem_cons]
    by_cases hlt : (if head = .v128 then (start + 15) / 16 * 16 else start) < maxBytes
    · have hend : (if head = .v128 then (start + 15) / 16 * 16 else start)
          + (if head = .v128 then 16 else 8) ≤ maxBytes := by
        split at hlt <;> simp_all <;> omega
      have hnext : ((if head = .v128 then (start + 15) / 16 * 16 else start)
          + (if head = .v128 then 16 else 8)) % 8 = 0 := by
        split <;> omega
      rw [ih _ hnext hend]
      simp [hlt]
    · have hge := le_slotBytesNeededFrom rest
        ((if head = .v128 then (start + 15) / 16 * 16 else start)
          + (if head = .v128 then 16 else 8))
      have hpos : 0 < (if head = .v128 then 16 else 8) := by split <;> omega
      constructor
      · intro h; exact absurd h.1 hlt
      · intro h; omega

/-- Copying the arguments to their slots leaves a byte as it was when every
copy ends at or before it. -/
theorem copyToSlots_above (getTypeByteWidth : ValueType → Nat)
    (arguments : Nat → UntaggedValue) (a : Nat) (parameters : List ValueType) :
    ∀ (offsets : List Nat) (argumentIndex : Nat) (argData : Memory),
      (∀ (i o : Nat) (type : ValueType), offsets[i]? = some o → parameters[i]? = some type →
        o + getTypeByteWidth type ≤ a) →
      copyToSlots getTypeByteWidth arguments parameters offsets argumentIndex argData a
        = argData a := by
  induction parameters with
  | nil => intro offsets _ _ _; cases offsets <;> rfl
  | cons head rest ih =>
    intro offsets argumentIndex argData h
    cases offsets with
    | nil => rfl
    | cons o os =>
      simp only [copyToSlots]
      rw [ih os _ _ (fun i o' t ho ht => h (i + 1) o' t (by simpa using ho) (by simpa using ht))]
      have h0 := h 0 o head (by simp) (by simp)
      have hna : ¬ (o ≤ a ∧ a < o + getTypeByteWidth head) := by omega
      simp [memcpy, hna]

/-- C12: in a buffer whose size is a multiple of 16, `invokeFunctionUnchecked`
throws `outOfMemory`, whatever the invoke thunk would do, exactly when the
argument slots need more bytes than `maxThunkArgAndReturnBytes`; the argument
loop throws exactly then; and when it does not throw and no argument is wider
than its slot, every copy ends within the buffer and the bytes at and after
`maxThunkArgAndReturnBytes` are as they were. -/
theorem invokeFunctionUnchecked_outOfMemory_iff
    (maxThunkArgAndReturnBytes : Nat) (getTypeByteWidth : ValueType → Nat)
    (contextRuntimeData : ContextRuntimeData) (functionType : FunctionType)
    (arguments : Nat → UntaggedValue)
    (hmax : maxThunkArgAndReturnBytes + 32 ≤ 2 ^ 64)
    (h16 : maxThunkArgAndReturnBytes % 16 = 0) :
    ((∀ invokeThunk : ContextRuntimeData → Except Exception ContextRuntimeData,
        invokeFunctionUnchecked maxThunkArgAndReturnBytes getTypeByteWidth invokeThunk
          contextRuntimeData functionType arguments = .error .outOfMemoryType)
      ↔ slotBytesNeeded functionType.parameters > maxThunkArgAndReturnBytes) ∧
    (copyArguments maxThunkArgAndReturnBytes getTypeByteWidth arguments
        functionType.parameters 0 contextRuntimeData.thunkArgAndReturnData 0 = none
      ↔ slotBytesNeeded functionType.parameters > maxThunkArgAndReturnBytes) ∧
    (∀ argData : Memory,
      copyArguments maxThunkArgAndReturnBytes getTypeByteWidth arguments
        functionType.parameters 0 contextRuntimeData.thunkArgAndReturnData 0 = some argData →
      (∀ type ∈ functionType.parameters, getTypeByteWidth type ≤ argSlotBytes type) →
      (∀ (i o : Nat) (type : ValueType),
        (slotOffsets functionType.parameters)[i]? = some o →
        functionType.parameters[i]? = some type →
        o + getTypeByteWidth type ≤ maxThunkArgAndReturnBytes) ∧
      ∀ a, maxThunkArgAndReturnBytes ≤ a →
        argData a = contextRuntimeData.thunkArgAndReturnData a) := by
  have heq := copyArguments_eq maxThunkArgAndReturnBytes getTypeByteWidth arguments hmax
    functionType.parameters 0 contextRuntimeData.thunkArgAndReturnData 0 (by omega)
  have hiff := slots_start_inside_iff maxThunkArgAndReturnBytes h16 functionType.parameters 0
    rfl (Nat.zero_le _)
  have hnone : copyArguments maxThunkArgAndReturnBytes getTypeByteWidth arguments
        functionType.parameters 0 contextRuntimeData.thunkArgAndReturnData 0 = none
      ↔ slotBytesNeeded functionType.parameters > maxThunkArgAndReturnBytes := by
    rw [heq]
    unfold slotBytesNeeded
    by_cases hall : ∀ o ∈ slotOffsetsFrom 0 functionType.parameters,
        o < maxThunkArgAndReturnBytes
    · have := hiff.mp hall
      rw [if_pos hall]
      constructor
      · intro h; cases h
      · intro h; omega
    · have : ¬ slotBytesNeededFrom 0 functionType.parameters ≤ maxThunkArgAndReturnBytes :=
        fun h => hall (hiff.mpr h)
      rw [if_neg hall]
      simp only [true_iff]
      omega
  refine ⟨?_, hnone, ?_⟩
  · rw [← hnone]
    constructor
    · intro h
      have h1 := h (fun page => .ok page)
      simp only [invokeFunctionUnchecked] at h1
      cases hc : copyArguments maxThunkArgAndReturnBytes getTypeByteWidth arguments
        functionType.parameters 0 contextRuntimeData.thunkArgAndReturnData 0 with
      | none => rfl
      | some m => rw [hc] at h1; cases h1
    · intro h invokeThunk
      simp [invokeFunctionUnchecked, h]
  · intro argData hsome hwidth
    have hall : ∀ o ∈ slotOffsetsFrom 0 functionType.parameters,
        o < maxThunkArgAndReturnBytes := by
      by_contra hc
      rw [heq, if_neg hc] at hsome
      cases hsome
    have hdata : argData = copyToSlots getTypeByteWidth arguments functionType.parameters
        (slotOffsetsFrom 0 functionType.parameters) 0
        contextRuntimeData.thunkArgAndReturnData := by
      rw [heq, if_pos hall] at hsome
      exact (Option.some.inj hsome).symm
    have hends : ∀ (i o : Nat) (type : ValueType),
        (slotOffsets functionType.parameters)[i]? = some o →
        functionType.parameters[i]? = some type →
        o + getTypeByteWidth type ≤ maxThunkArgAndReturnBytes := by
      intro i o type ho ht
      have hal := slotOffsetsFrom_aligned functionType.parameters 0 rfl i o type ho ht
      have hlt := hall o (List.getElem?_mem ho)
      have hw := hwidth type (List.getElem?_mem ht)
      unfold argSlotBytes at hw
      by_cases hv : type = .v128
      · have := hal.2.2 hv
        simp only [hv, if_true] at hw
        rw [hv]
        omega
      · simp only [hv, if_false] at hw
        omega
    refine ⟨hends, fun a ha => ?_⟩
    rw [hdata]
    exact copyToSlots_above getTypeByteWidth arguments a functionType.parameters _ _ _
      (fun i o type ho ht => le_trans (hends i o type ho ht) ha)

end Runtime

namespace Runtime

/-- C12, at a concrete input: three arguments of types `(i64, i64, i32)` need 24
bytes and do not fit a buffer of 16. -/
theorem invokeFunctionUnchecked_outOfMemory_iff_witness :
    ((∀ invokeThunk : ContextRuntimeData → Except Exception ContextRuntimeData,
        invokeFunctionUnchecked 16 typeByteWidth invokeThunk zeroPage
          ⟨.i32, [.i64, .i64, .i32]⟩ (fun _ => (valueOfBytes .i64 [7]).payload)
          = .error .outOfMemoryType)
      ↔ slotBytesNeeded (⟨.i32, [.i64, .i64, .i32]⟩ : FunctionType).parameters > 16) ∧
    (copyArguments 16 typeByteWidth (fun _ => (valueOfBytes .i64 [7]).payload)
        (⟨.i32, [.i64, .i64, .i32]⟩ : FunctionType).parameters 0
        zeroPage.thunkArgAndReturnData 0 = none
      ↔ slotBytesNeeded (⟨.i32, [.i64, .i64, .i32]⟩ : FunctionType).parameters > 16) ∧
    (∀ argData : Memory,
      copyArguments 16 typeByteWidth (fun _ => (valueOfBytes .i64 [7]).payload)
        (⟨.i32, [.i64, .i64, .i32]⟩ : FunctionType).parameters 0
        zeroPage.thunkArgAndReturnData 0 = some argData →
      (∀ type ∈ (⟨.i32, [.i64, .i64, .i32]⟩ : FunctionType).parameters,
        typeByteWidth type ≤ argSlotBytes type) →
      (∀ (i o : Nat) (type : ValueType),
        (slotOffsets (⟨.i32, [.i64, .i64, .i32]⟩ : FunctionType).parameters)[i]? = some o →
        (⟨.i32, [.i64, .i64, .i32]⟩ : FunctionType).parameters[i]? = some type →
        o + typeByteWidth type ≤ 16) ∧
      ∀ a, 16 ≤ a → argData a = zeroPage.thunkArgAndReturnData a) :=
  invokeFunctionUnchecked_outOfMemory_iff 16 typeByteWidth zeroPage
    ⟨.i32, [.i64, .i64, .i32]⟩ (fun _ => (valueOfBytes .i64 [7]).payload)
    (by decide) (by decide)

/-- The type loop of `invokeFunctionChecked` throws exactly when some argument's
type is not the parameter of the same index. -/
theorem argumentTypesMatch_eq_false_iff (parameters : List ValueType) :
    ∀ arguments : List Value,
      argumentTypesMatch parameters arguments = false ↔
        ∃ (i : Nat) (argument : Value) (type : ValueType),
          arguments[i]? = some argument ∧ parameters[i]? = some type ∧ argument.type ≠ type := by
  induction parameters with
  | nil =>
    intro arguments
    simp [argumentTypesMatch]
  | cons head rest ih =>
    intro arguments
    cases arguments with
    | nil => simp [argumentTypesMatch]
    | cons first others =>
      simp only [argumentTypesMatch]
      by_cases hne : head ≠ first.type
      · rw [if_pos hne]
        simp only [true_iff]
        exact ⟨0, first, head, by simp, by simp, fun h => hne h.symm⟩
      · have heq : head = first.type := by
          by_contra hc; exact hne hc
        rw [if_neg hne, ih others]
        constructor
        · rintro ⟨i, argument, type, ha, hp, ht⟩
          exact ⟨i + 1, argument, type, by simpa using ha, by simpa using hp, ht⟩
        · rintro ⟨i, argument, type, ha, hp, ht⟩
          cases i with
          | zero =>
            simp only [List.getElem?_cons_zero, Option.some.injEq] at ha hp
            subst ha hp
            exact absurd heq.symm ht
          | succ j =>
            exact ⟨j, argument, type, by simpa using ha, by simpa using hp, ht⟩

/-- The argument loop of `invokeFunctionUnchecked` reads only the arguments of
the indices it visits: blocks that agree on them give the same buffer. -/
theorem copyArguments_congr (maxThunkArgAndReturnBytes : Nat)
    (getTypeByteWidth : ValueType → Nat) (left right : Nat → UntaggedValue)
    (types : List ValueType) :
    ∀ (argumentIndex : Nat) (argData : Memory) (argDataOffset : Nat),
      (∀ i, argumentIndex ≤ i → i < argumentIndex + types.length → left i = right i) →
      copyArguments maxThunkArgAndReturnBytes getTypeByteWidth left types argumentIndex
          argData argDataOffset
        = copyArguments maxThunkArgAndReturnBytes getTypeByteWidth right types argumentIndex
          argData argDataOffset := by
  induction types with
  | nil =>
    intro argumentIndex argData argDataOffset _
    rfl
  | cons type rest ih =>
    intro argumentIndex argData argDataOffset hsame
    have hhere : left argumentIndex = right argumentIndex :=
      hsame argumentIndex (Nat.le_refl _) (by simp)
    have hrest : ∀ i, argumentIndex + 1 ≤ i → i < argumentIndex + 1 + rest.length →
        left i = right i := by
      intro i hlo hhi
      exact hsame i (by omega) (by simp only [List.length_cons]; omega)
    simp only [copyArguments, hhere]
    rw [ih (argumentIndex + 1) _ _ hrest]

/-- The block `untaggedArguments` holds, at every index of an argument, that
argument without its tag. -/
theorem untaggedArguments_eq_payload (arguments : List Value) (i : Nat) (argument : Value)
    (h : arguments[i]? = some argument) :
    untaggedArguments arguments i = argument.payload := by
  simp [untaggedArguments, h]

/-- C13: `invokeFunctionChecked` throws `invokeSignatureMismatch` whatever the
invoke thunk would do, so without invoking the function, exactly when the
number of arguments differs from the number of parameters or some argument's
type is not the parameter of the same index.  Otherwise it ends as
`invokeFunctionUnchecked` does on the same arguments without their tags, that
is on any block whose element `i` is the payload of `arguments[i]`: when that
returns, with the `Result` of the function's declared return type whose payload
is the returned value; when that throws, with the same exception. -/
theorem invokeFunctionChecked_signature_check
    (maxThunkArgAndReturnBytes : Nat) (getTypeByteWidth : ValueType → Nat)
    (contextRuntimeData : ContextRuntimeData) (functionType : FunctionType)
    (arguments : List Value) :
    ((∀ invokeThunk : ContextRuntimeData → Except Exception ContextRuntimeData,
        invokeFunctionChecked maxThunkArgAndReturnBytes getTypeByteWidth invokeThunk
          contextRuntimeData functionType arguments = .error .invokeSignatureMismatchType)
      ↔ signatureMismatch functionType.parameters arguments) ∧
    (¬ signatureMismatch functionType.parameters arguments →
      ∀ (invokeThunk : ContextRuntimeData → Except Exception ContextRuntimeData)
        (stripped : Nat → UntaggedValue),
        (∀ (i : Nat) (argument : Value),
          arguments[i]? = some argument → stripped i = argument.payload) →
        invokeFunctionChecked maxThunkArgAndReturnBytes getTypeByteWidth invokeThunk
          contextRuntimeData functionType arguments
        = (invokeFunctionUnchecked maxThunkArgAndReturnBytes getTypeByteWidth invokeThunk
            contextRuntimeData functionType stripped).map
            (fun returned => ⟨functionType.ret, loadUntaggedValue returned 0⟩)) := by
  have hmatch : ¬ signatureMismatch functionType.parameters arguments →
      ∀ (invokeThunk : ContextRuntimeData → Except Exception ContextRuntimeData)
        (stripped : Nat → UntaggedValue),
        (∀ (i : Nat) (argument : Value),
          arguments[i]? = some argument → stripped i = argument.payload) →
        invokeFunctionChecked maxThunkArgAndReturnBytes getTypeByteWidth invokeThunk
          contextRuntimeData functionType arguments
        = (invokeFunctionUnchecked maxThunkArgAndReturnBytes getTypeByteWidth invokeThunk
            contextRuntimeData functionType stripped).map
            (fun returned => ⟨functionType.ret, loadUntaggedValue returned 0⟩) := by
    intro hno invokeThunk stripped hstripped
    unfold signatureMismatch at hno
    rw [not_or] at hno
    obtain ⟨hlen, htypes⟩ := hno
    have hlen2 : arguments.length = functionType.parameters.length := by
      by_contra hc; exact hlen hc
    have htm : ¬ argumentTypesMatch functionType.parameters arguments = false := by
      rw [argumentTypesMatch_eq_false_iff]; exact htypes
    have hcopy : copyArguments maxThunkArgAndReturnBytes getTypeByteWidth
          (untaggedArguments arguments) functionType.parameters 0
          contextRuntimeData.thunkArgAndReturnData 0
        = copyArguments maxThunkArgAndReturnBytes getTypeByteWidth stripped
          functionType.parameters 0 contextRuntimeData.thunkArgAndReturnData 0 := by
      apply copyArguments_congr
      intro i _ hi
      have hi2 : i < arguments.length := by omega
      have hget : arguments[i]? = some (arguments.get ⟨i, hi2⟩) := by
        simp [List.getElem?_eq_getElem hi2]
      rw [untaggedArguments_eq_payload arguments i _ hget, hstripped i _ hget]
    simp only [invokeFunctionChecked, hlen2, ne_eq, not_true_eq_false, if_false, htm,
      invokeFunctionUnchecked, hcopy]
    cases copyArguments maxThunkArgAndReturnBytes getTypeByteWidth stripped
      functionType.parameters 0 contextRuntimeData.thunkArgAndReturnData 0 with
    | none => rfl
    | some argData =>
      simp only
      cases invokeThunk { contextRuntimeData with thunkArgAndReturnData := argData } <;> rfl
  refine ⟨⟨fun h => ?_, fun h invokeThunk => ?_⟩, hmatch⟩
  · by_contra hno
    have h1 := h (fun page => .ok page)
    rw [hmatch hno (fun page => .ok page) (untaggedArguments arguments)
      (untaggedArguments_eq_payload arguments)] at h1
    simp only [invokeFunctionUnchecked] at h1
    cases hc : copyArguments maxThunkArgAndReturnBytes getTypeByteWidth
      (untaggedArguments arguments) functionType.parameters 0
      contextRuntimeData.thunkArgAndReturnData 0 with
    | none => rw [hc] at h1; simp [Except.map] at h1
    | some m => rw [hc] at h1; simp [Except.map] at h1
  · rcases h with hlen | htypes
    · simp [invokeFunctionChecked, hlen]
    · have htm := (argumentTypesMatch_eq_false_iff functionType.parameters arguments).mpr htypes
      simp [invokeFunctionChecked, htm]

end Runtime

namespace Runtime

/-! ## Intrinsics -/

/-- C14: the `growMemory` intrinsic returns -1 whenever the runtime's
`growMemory` returned -1, for every `deltaPages`; and when that returned a
previous page count that fits an `i32` and the sum the code computes,
`numPreviousMemoryPages + (Uptr)deltaPages` in `Uptr`, is at most
`maxMemoryPages`, the intrinsic returns the previous page count.  For a 32-bit
`deltaPages` and a new total `previous + deltaPages` between 0 and
`maxMemoryPages` that sum is the new total. -/
theorem growMemory_intrinsic_result (maxMemoryPages : Nat) (growMemory : Nat → Int)
    (deltaPages : Int) :
    (growMemory (toUptr deltaPages) = -1 →
      _growMemory maxMemoryPages growMemory deltaPages = -1) ∧
    (0 ≤ growMemory (toUptr deltaPages) → growMemory (toUptr deltaPages) < 2 ^ 31 →
      uptr (toUptr (growMemory (toUptr deltaPages)) + toUptr deltaPages) ≤ maxMemoryPages →
      _growMemory maxMemoryPages growMemory deltaPages = growMemory (toUptr deltaPages)) ∧
    (-(2 : Int) ^ 31 ≤ deltaPages → deltaPages < 2 ^ 31 →
      0 ≤ growMemory (toUptr deltaPages) → growMemory (toUptr deltaPages) < 2 ^ 31 →
      0 ≤ growMemory (toUptr deltaPages) + deltaPages →
      growMemory (toUptr deltaPages) + deltaPages ≤ (maxMemoryPages : Int) →
      _growMemory maxMemoryPages growMemory deltaPages = growMemory (toUptr deltaPages)) := by
  have hret : ∀ p : Int, 0 ≤ p → p < 2 ^ 31 → toI32 p = p := by
    intro p h0 h1
    unfold toI32
    omega
  refine ⟨?_, ?_, ?_⟩
  · intro hfail
    unfold _growMemory
    rw [hfail]
    split
    · rfl
    · decide
  · intro h0 h1 hsum
    unfold _growMemory
    rw [if_neg (by omega)]
    exact hret _ h0 h1
  · intro hd0 hd1 h0 h1 hs0 hs1
    unfold _growMemory
    have hsum : uptr (toUptr (growMemory (toUptr deltaPages)) + toUptr deltaPages)
        ≤ maxMemoryPages := by
      generalize growMemory (toUptr deltaPages) = p at *
      unfold uptr toUptr
      omega
    rw [if_neg (by omega)]
    exact hret _ h0 h1

end Runtime

namespace Runtime

/-- C15: on the bit patterns of `f32` and `f64`, `floatMin` of the two zeros, in
either order, is `-0.0` and `floatMax` of them is `+0.0`; and for every format,
when neither operand is a NaN and neither compares less than the other,
`floatMin` returns the operand whose unsigned integer bitcast is greater and
`floatMax` the one whose bitcast is lesser. -/
theorem floatMin_floatMax_of_ties :
    (floatMin f32Format (negativeZero f32Format) positiveZero = negativeZero f32Format ∧
      floatMin f32Format positiveZero (negativeZero f32Format) = negativeZero f32Format ∧
      floatMax f32Format (negativeZero f32Format) positiveZero = positiveZero ∧
      floatMax f32Format positiveZero (negativeZero f32Format) = positiveZero) ∧
    (floatMin f64Format (negativeZero f64Format) positiveZero = negativeZero f64Format ∧
      floatMin f64Format positiveZero (negativeZero f64Format) = negativeZero f64Format ∧
      floatMax f64Format (negativeZero f64Format) positiveZero = positiveZero ∧
      floatMax f64Format positiveZero (negativeZero f64Format) = positiveZero) ∧
    (∀ (format : FloatFormat) (left right : Nat),
      isNaN format left = false → isNaN format right = false →
      floatLess format left right = false → floatLess format right left = false →
      (floatMin format left right = left ∨ floatMin format left right = right) ∧
      bitcastInt (floatMin format left right) = max (bitcastInt left) (bitcastInt right) ∧
      (floatMax format left right = left ∨ floatMax format left right = right) ∧
      bitcastInt (floatMax format left right) = min (bitcastInt left) (bitcastInt right)) := by
  refine ⟨by decide, by decide, ?_⟩
  intro format left right hl hr hlt hgt
  simp only [floatMin, floatMax, hl, hr, hlt, hgt, bitcastInt, Bool.false_eq_true, if_false]
  by_cases h : left < right
  · have h2 : ¬ left > right := by omega
    simp only [h, h2, if_true, if_false]
    exact ⟨by simp, by omega, by simp, by omega⟩
  · by_cases h2 : left > right
    · simp only [h, h2, if_true, if_false]
      exact ⟨by simp, by omega, by simp, by omega⟩
    · simp only [h, h2, if_false]
      exact ⟨by simp, by omega, by simp, by omega⟩

/-- The quieted float is the significand or-ed with its top bit, put back under
the other fields. -/
theorem quietNaN_fields (format : FloatFormat) (value : Nat)
    (hs : 0 < format.numSignificandBits) :
    (significand format value ||| 2 ^ (format.numSignificandBits - 1))
      < 2 ^ format.numSignificandBits ∧
    quietNaN format value
      = 2 ^ format.numSignificandBits * (value / 2 ^ format.numSignificandBits)
        + (significand format value ||| 2 ^ (format.numSignificandBits - 1)) := by
  have hpos : 0 < 2 ^ format.numSignificandBits := Nat.two_pow_pos _
  have hr : significand format value < 2 ^ format.numSignificandBits := Nat.mod_lt _ hpos
  have hm : 2 ^ (format.numSignificandBits - 1) < 2 ^ format.numSignificandBits :=
    Nat.pow_lt_pow_right (by decide) (by omega)
  have hor := Nat.or_lt_two_pow hr hm
  refine ⟨hor, ?_⟩
  unfold quietNaN
  rw [Nat.mod_eq_of_lt hor]
  have hdm := Nat.div_add_mod value (2 ^ format.numSignificandBits)
  unfold significand at *
  omega

/-- Bit by bit, quieting sets the top bit of the significand and changes no
other bit. -/
theorem testBit_quietNaN (format : FloatFormat) (value : Nat)
    (hs : 0 < format.numSignificandBits) (i : Nat) :
    (quietNaN format value).testBit i
      = (value.testBit i || decide (format.numSignificandBits - 1 = i)) := by
  obtain ⟨hlt, heq⟩ := quietNaN_fields format value hs
  have hr : value % 2 ^ format.numSignificandBits < 2 ^ format.numSignificandBits :=
    Nat.mod_lt _ (Nat.two_pow_pos _)
  have hv : value = 2 ^ format.numSignificandBits * (value / 2 ^ format.numSignificandBits)
      + value % 2 ^ format.numSignificandBits := (Nat.div_add_mod _ _).symm
  rw [heq, Nat.testBit_mul_pow_two_add _ hlt]
  conv_rhs => rw [hv, Nat.testBit_mul_pow_two_add _ hr]
  by_cases hi : i < format.numSignificandBits
  · simp [hi, significand, Nat.testBit_two_pow]
  · have hne : ¬ format.numSignificandBits - 1 = i := by omega
    simp [hi, hne]

/-- Quieting is or-ing the bit pattern with the top bit of the significand. -/
theorem quietNaN_eq_or (format : FloatFormat) (value : Nat)
    (hs : 0 < format.numSignificandBits) :
    quietNaN format value = value ||| 2 ^ (format.numSignificandBits - 1) := by
  apply Nat.eq_of_testBit_eq
  intro i
  rw [testBit_quietNaN format value hs, Nat.testBit_or, Nat.testBit_two_pow]

/-- C16: for a NaN `n` of a format with a significand field, `floatMin` and
`floatMax` with `n` as the left operand, or as the right operand of a float that
is not a NaN, and `floatCeil`, `floatFloor`, `floatTrunc` and `floatNearest` of
`n`, all return `quietNaN(n)`.  `quietNaN(n)` has the sign and exponent of `n`
and its significand or-ed with the most significant significand bit: that bit is
set and every other bit is as in `n`.  It is a NaN, and `quietNaN` is
idempotent. -/
theorem nan_operands_are_quieted (format : FloatFormat) (n x : Nat)
    (ceil floor trunc nearbyint : Nat → Nat)
    (hs : 0 < format.numSignificandBits)
    (hn : isNaN format n = true) :
    floatMin format n x = quietNaN format n ∧
    floatMax format n x = quietNaN format n ∧
    (isNaN format x = false →
      floatMin format x n = quietNaN format n ∧ floatMax format x n = quietNaN format n) ∧
    floatCeil format ceil n = quietNaN format n ∧
    floatFloor format floor n = quietNaN format n ∧
    floatTrunc format trunc n = quietNaN format n ∧
    floatNearest format nearbyint n = quietNaN format n ∧
    sign format (quietNaN format n) = sign format n ∧
    exponent format (quietNaN format n) = exponent format n ∧
    significand format (quietNaN format n)
      = significand format n ||| 2 ^ (format.numSignificandBits - 1) ∧
    (quietNaN format n).testBit (format.numSignificandBits - 1) = true ∧
    (∀ i, i ≠ format.numSignificandBits - 1 →
      (quietNaN format n).testBit i = n.testBit i) ∧
    isNaN format (quietNaN format n) = true ∧
    quietNaN format (quietNaN format n) = quietNaN format n := by
  obtain ⟨hlt, heq⟩ := quietNaN_fields format n hs
  have hpos : 0 < 2 ^ format.numSignificandBits := Nat.two_pow_pos _
  have hdiv : quietNaN format n / 2 ^ format.numSignificandBits
      = n / 2 ^ format.numSignificandBits := by
    rw [heq, Nat.mul_add_div hpos, Nat.div_eq_of_lt hlt, Nat.add_zero]
  have hsig : significand format (quietNaN format n)
      = significand format n ||| 2 ^ (format.numSignificandBits - 1) := by
    conv_lhs => unfold significand
    rw [heq, Nat.mul_add_mod, Nat.mod_eq_of_lt hlt]
  have hexp : exponent format (quietNaN format n) = exponent format n := by
    unfold exponent
    rw [hdiv]
  have hsign : sign format (quietNaN format n) = sign format n := by
    unfold sign
    rw [Nat.pow_add, ← Nat.div_div_eq_div_mul, ← Nat.div_div_eq_div_mul, hdiv]
  have htop : (quietNaN format n).testBit (format.numSignificandBits - 1) = true := by
    rw [testBit_quietNaN format n hs]
    simp
  have hne0 : significand format n ||| 2 ^ (format.numSignificandBits - 1) ≠ 0 := by
    intro h0
    have hb : (significand format n ||| 2 ^ (format.numSignificandBits - 1)).testBit
        (format.numSignificandBits - 1) = true := by
      rw [Nat.testBit_or, Nat.testBit_two_pow_self, Bool.or_true]
    rw [h0, Nat.zero_testBit] at hb
    cases hb
  have hnan : isNaN format (quietNaN format n) = true := by
    unfold isNaN at hn ⊢
    rw [hexp, hsig]
    simp only [Bool.and_eq_true, decide_eq_true_eq] at hn ⊢
    exact ⟨hn.1, hne0⟩
  refine ⟨by simp [floatMin, hn], by simp [floatMax, hn], ?_, by simp [floatCeil, hn],
    by simp [floatFloor, hn], by simp [floatTrunc, hn], by simp [floatNearest, hn],
    hsign, hexp, hsig, htop, ?_, hnan, ?_⟩
  · intro hx
    exact ⟨by simp [floatMin, hn, hx], by simp [floatMax, hn, hx]⟩
  · intro i hi
    rw [testBit_quietNaN format n hs]
    have : ¬ format.numSignificandBits - 1 = i := fun h => hi h.symm
    simp [this]
  · rw [quietNaN_eq_or format _ hs, quietNaN_eq_or format n hs, Nat.or_assoc, Nat.or_self]

end Runtime

namespace Runtime

/-- C16, at a concrete input: the `f32` signalling NaN `0x7F800001`, with `1.0`
as the other operand. -/
theorem nan_operands_are_quieted_witness :
    floatMin f32Format 0x7F800001 0x3F800000 = quietNaN f32Format 0x7F800001 ∧
    floatMax f32Format 0x7F800001 0x3F800000 = quietNaN f32Format 0x7F800001 ∧
    (isNaN f32Format 0x3F800000 = false →
      floatMin f32Format 0x3F800000 0x7F800001 = quietNaN f32Format 0x7F800001 ∧
      floatMax f32Format 0x3F800000 0x7F800001 = quietNaN f32Format 0x7F800001) ∧
    floatCeil f32Format id 0x7F800001 = quietNaN f32Format 0x7F800001 ∧
    floatFloor f32Format id 0x7F800001 = quietNaN f32Format 0x7F800001 ∧
    floatTrunc f32Format id 0x7F800001 = quietNaN f32Format 0x7F800001 ∧
    floatNearest f32Format id 0x7F800001 = quietNaN f32Format 0x7F800001 ∧
    sign f32Format (quietNaN f32Format 0x7F800001) = sign f32Format 0x7F800001 ∧
    exponent f32Format (quietNaN f32Format 0x7F800001) = exponent f32Format 0x7F800001 ∧
    significand f32Format (quietNaN f32Format 0x7F800001)
      = significand f32Format 0x7F800001 ||| 2 ^ (f32Format.numSignificandBits - 1) ∧
    (quietNaN f32Format 0x7F800001).testBit (f32Format.numSignificandBits - 1) = true ∧
    (∀ i, i ≠ f32Format.numSignificandBits - 1 →
      (quietNaN f32Format 0x7F800001).testBit i = (0x7F800001 : Nat).testBit i) ∧
    isNaN f32Format (quietNaN f32Format 0x7F800001) = true ∧
    quietNaN f32Format (quietNaN f32Format 0x7F800001) = quietNaN f32Format 0x7F800001 :=
  nan_operands_are_quieted f32Format 0x7F800001 0x3F800000 id id id id (by decide) (by decide)

end Runtime

namespace WavmRun

/-! ## The driver: ABI detection, exit code and options -/

/-- An iteration of the option loop that goes on leaves a chosen ABI and a
chosen trace level as they are. -/
theorem parseArgument_keeps (parseAndSetFeature : CString → List CString → Option (List CString))
    (s s2 : State) (arg : CString) (rest rest2 : List CString)
    (h : parseArgument parseAndSetFeature s arg rest = .next s2 rest2) :
    (s.abi ≠ .detect → s2.abi = s.abi) ∧
    (s.wasiTraceLavel ≠ .none → s2.wasiTraceLavel = s.wasiTraceLavel) := by
  unfold parseArgument at h
  repeat' split at h
  all_goals cases h
  all_goals (refine ⟨fun hh => ?_, fun hh => ?_⟩ <;> first | rfl | contradiction)

/-- The option loop leaves a chosen ABI and a chosen trace level as they are. -/
theorem parseReaches_keeps (parseAndSetFeature : CString → List CString → Option (List CString))
    (s s3 : State) (args args3 : List CString)
    (h : ParseReaches parseAndSetFeature s args s3 args3) :
    (s.abi ≠ .detect → s3.abi = s.abi) ∧
    (s.wasiTraceLavel ≠ .none → s3.wasiTraceLavel = s.wasiTraceLavel) := by
  induction h with
  | here => exact ⟨fun _ => rfl, fun _ => rfl⟩
  | step state arg rest state2 rest2 state3 rest3 hstep _ ih =>
    obtain ⟨ha, hw⟩ := parseArgument_keeps parseAndSetFeature state state2 arg rest rest2 hstep
    refine ⟨fun hh => ?_, fun hh => ?_⟩
    · have h2 := ha hh
      rw [ih.1 (by rw [h2]; exact hh), h2]
    · have h2 := hw hh
      rw [ih.2 (by rw [h2]; exact hh), h2]

/-- An argument that starts with `--abi=` is handled by the ABI option, which,
when the loop goes on, has chosen an ABI. -/
theorem parseArgument_abi_chosen
    (parseAndSetFeature : CString → List CString → Option (List CString))
    (s s2 : State) (arg : CString) (rest rest2 : List CString)
    (hstart : stringStartsWith arg "--abi=".toList = true)
    (h : parseArgument parseAndSetFeature s arg rest = .next s2 rest2) :
    s2.abi ≠ .detect := by
  have hfirst : (strEqual arg "--function".toList || strEqual arg "-f".toList) = false := by
    simp only [stringStartsWith, strEqual, decide_eq_true_eq, Bool.or_eq_false_iff,
      decide_eq_false_iff_not] at hstart ⊢
    have h6 : strlen "--abi=".toList = 6 := by decide
    rw [h6] at hstart
    constructor
    · intro h; rw [h] at hstart; revert hstart; decide
    · intro h; rw [h] at hstart; revert hstart; decide
  simp only [parseArgument, hfirst, hstart, Bool.false_eq_true, if_false, if_true] at h
  repeat' split at h
  all_goals cases h
  all_goals simp

/-- C17, as stated, fails: a module whose second memory import is `env.memory`
and which imports a function from `env` is an Emscripten module by the rule
that looks at any memory import, and the driver detects the bare ABI. -/
theorem detectABI_ignores_later_memory_imports :
    detectABIAnyMemory ⟨[⟨"env", "f"⟩], [⟨"other", "mem"⟩, ⟨"env", "memory"⟩]⟩ = .emscripten ∧
    detectABI .detect ⟨[⟨"env", "f"⟩], [⟨"other", "mem"⟩, ⟨"env", "memory"⟩]⟩ = .bare ∧
    detectABI .detect ⟨[⟨"env", "f"⟩], [⟨"other", "mem"⟩, ⟨"env", "memory"⟩]⟩
      ≠ detectABIAnyMemory ⟨[⟨"env", "f"⟩], [⟨"other", "mem"⟩, ⟨"env", "memory"⟩]⟩ := by
  decide

/-- C17, amended: without an `--abi` flag the driver selects WASI iff some
function import has module name `wasi_unstable`; otherwise Emscripten iff the
first memory import of the module is `env.memory` and some function import has
module name `env`; otherwise bare.  A chosen ABI is returned as it is, and an
`--abi=` option that the loop accepts chooses an ABI that the rest of the loop
and the detection leave as it is. -/
theorem detectABI_rule (irModule : Module) :
    (detectABI .detect irModule = .wasi ↔
      ∃ i ∈ irModule.functionImports, i.moduleName = "wasi_unstable") ∧
    (detectABI .detect irModule = .emscripten ↔
      (¬ ∃ i ∈ irModule.functionImports, i.moduleName = "wasi_unstable") ∧
      (∃ first, irModule.memoryImports.head? = some first ∧
        first.moduleName = "env" ∧ first.exportName = "memory") ∧
      ∃ i ∈ irModule.functionImports, i.moduleName = "env") ∧
    (detectABI .detect irModule = .bare ↔
      (¬ ∃ i ∈ irModule.functionImports, i.moduleName = "wasi_unstable") ∧
      ¬ ((∃ first, irModule.memoryImports.head? = some first ∧
          first.moduleName = "env" ∧ first.exportName = "memory") ∧
        ∃ i ∈ irModule.functionImports, i.moduleName = "env")) ∧
    (∀ abi : ABI, abi ≠ .detect → detectABI abi irModule = abi) ∧
    (∀ (parseAndSetFeature : CString → List CString → Option (List CString))
      (state state2 state3 : State) (arg : CString) (rest rest2 rest3 : List CString),
      stringStartsWith arg "--abi=".toList = true →
      parseArgument parseAndSetFeature state arg rest = .next state2 rest2 →
      ParseReaches parseAndSetFeature state2 rest2 state3 rest3 →
      state2.abi ≠ .detect ∧ state3.abi = state2.abi ∧
      detectABI state3.abi irModule = state2.abi) := by
  have hwasi : isWASIModule irModule = true ↔
      ∃ i ∈ irModule.functionImports, i.moduleName = "wasi_unstable" := by
    simp [isWASIModule]
  have hems : isEmscriptenModule irModule = true ↔
      ((∃ first, irModule.memoryImports.head? = some first ∧
          first.moduleName = "env" ∧ first.exportName = "memory") ∧
        ∃ i ∈ irModule.functionImports, i.moduleName = "env") := by
    unfold isEmscriptenModule
    cases hm : irModule.memoryImports with
    | nil => simp
    | cons first others =>
      by_cases h1 : first.moduleName = "env" <;> by_cases h2 : first.exportName = "memory" <;>
        simp [h1, h2]
  have hkeep : ∀ abi : ABI, abi ≠ .detect → detectABI abi irModule = abi := by
    intro abi h
    simp [detectABI, h]
  refine ⟨?_, ?_, ?_, hkeep, ?_⟩
  · rw [← hwasi]
    by_cases h1 : isWASIModule irModule = true <;>
      by_cases h2 : isEmscriptenModule irModule = true <;> simp [detectABI, h1, h2]
  · rw [← hwasi, ← hems]
    by_cases h1 : isWASIModule irModule = true <;>
      by_cases h2 : isEmscriptenModule irModule = true <;> simp [detectABI, h1, h2]
  · rw [← hwasi, ← hems]
    by_cases h1 : isWASIModule irModule = true <;>
      by_cases h2 : isEmscriptenModule irModule = true <;> simp [detectABI, h1, h2]
  · intro parseAndSetFeature state state2 state3 arg rest rest2 rest3 hstart hstep hreach
    have hchosen := parseArgument_abi_chosen parseAndSetFeature state state2 arg rest rest2
      hstart hstep
    have hsame := (parseReaches_keeps parseAndSetFeature state2 state3 rest2 rest3 hreach).1
      hchosen
    refine ⟨hchosen, hsame, ?_⟩
    rw [hkeep _ (by rw [hsame]; exact hchosen), hsame]

end WavmRun

namespace WavmRun

/-- C18, as stated, fails: an entry function selected with `--function` that
returns the single `i32` value 5 leaves the exit code at 0, not at 5. -/
theorem exit_code_with_function_option_is_zero :
    i32Of (Runtime.valueOfBytes .i32 [5]).payload = 5 ∧
    exitCodeAfterInvoke (some "add".toList) [.i32] [(Runtime.valueOfBytes .i32 [5]).payload] = 0 ∧
    exitCodeAfterInvoke (some "add".toList) [.i32] [(Runtime.valueOfBytes .i32 [5]).payload]
      ≠ i32Of (Runtime.valueOfBytes .i32 [5]).payload := by
  decide

/-- C18, amended: when the default entry function (no `--function` option)
returns normally with a single `i32` result, the exit code is that untagged
`i32`; when the entry function was selected with `--function` the exit code is
0 whatever it returns; for every other normal return the exit code is 0. -/
theorem exit_code_after_invoke (functionName : Option CString)
    (results : List Runtime.ValueType) (untaggedInvokeResults : List Runtime.UntaggedValue) :
    (functionName = none →
      ∀ untaggedResult, untaggedInvokeResults = [untaggedResult] →
        results.head? = some .i32 →
        exitCodeAfterInvoke functionName results untaggedInvokeResults = i32Of untaggedResult) ∧
    (functionName.isSome = true →
      exitCodeAfterInvoke functionName results untaggedInvokeResults = 0) ∧
    (functionName = none →
      (¬ ∃ untaggedResult, untaggedInvokeResults = [untaggedResult] ∧
        results.head? = some .i32) →
      exitCodeAfterInvoke functionName results untaggedInvokeResults = 0) := by
  refine ⟨?_, ?_, ?_⟩
  · intro hname untaggedResult hres htype
    subst hname; subst hres
    cases results with
    | nil => simp at htype
    | cons type others =>
      simp only [List.head?_cons, Option.some.injEq] at htype
      subst htype
      simp [exitCodeAfterInvoke]
  · intro hname
    simp [exitCodeAfterInvoke, hname, EXIT_SUCCESS]
  · intro hname hnot
    subst hname
    unfold exitCodeAfterInvoke
    simp only [Option.isSome_none, Bool.false_eq_true, if_false]
    split
    · rename_i untaggedResult type others
      split
      · rename_i htype
        exact absurd ⟨untaggedResult, rfl, by rw [htype]; rfl⟩ hnot
      · rfl
    · rfl

/-- An argument that starts with `--wasi-trace=` is none of the options tested
before it in the loop. -/
theorem not_other_option (arg : CString)
    (hstart : stringStartsWith arg "--wasi-trace=".toList = true) :
    (strEqual arg "--function".toList || strEqual arg "-f".toList) = false ∧
    stringStartsWith arg "--abi=".toList = false ∧
    strEqual arg "--enable".toList = false ∧
    strEqual arg "--precompiled".toList = false ∧
    strEqual arg "--mount-root".toList = false := by
  simp only [stringStartsWith, strEqual, decide_eq_true_eq, Bool.or_eq_false_iff,
    decide_eq_false_iff_not] at hstart ⊢
  have h13 : strlen "--wasi-trace=".toList = 13 := by decide
  rw [h13] at hstart
  refine ⟨⟨?_, ?_⟩, ?_, ?_, ?_, ?_⟩
  · intro h; rw [h] at hstart; revert hstart; decide
  · intro h; rw [h] at hstart; revert hstart; decide
  · intro h
    have h6 : strlen "--abi=".toList = 6 := by decide
    rw [h6] at h
    have : (arg.take 13).take 6 = arg.take 6 := by rw [List.take_take]; rfl
    rw [hstart, h] at this
    revert this; decide
  · intro h; rw [h] at hstart; revert hstart; decide
  · intro h; rw [h] at hstart; revert hstart; decide
  · intro h; rw [h] at hstart; revert hstart; decide

/-- The trace option, once reached: it fails when a level is already set, and
otherwise compares what follows the first 13 characters of the argument. -/
theorem parseArgument_wasi_trace
    (parseAndSetFeature : CString → List CString → Option (List CString))
    (state : State) (arg : CString) (rest : List CString)
    (hstart : stringStartsWith arg "--wasi-trace=".toList = true) :
    parseArgument parseAndSetFeature state arg rest =
      if state.wasiTraceLavel ≠ .none then .failed
      else if arg.drop 13 = "syscalls".toList then
        .next { state with wasiTraceLavel := .syscalls } rest
      else if arg.drop 13 = "syscalls-with-callstacks".toList then
        .next { state with wasiTraceLavel := .syscallsWithCallstacks } rest
      else .failed := by
  obtain ⟨h1, h2, h3, h4, h5⟩ := not_other_option arg hstart
  have h13 : strlen "--mount-root=".toList = 13 := by decide
  unfold parseArgument
  simp only [h1, h2, h3, h4, h5, hstart, h13, Bool.false_eq_true, if_false, if_true]
  simp only [strEqual, decide_eq_true_eq]

/-- C19: for an argument that starts with `--wasi-trace=`, the level string
that the option loop compares is the suffix after `--wasi-trace=`; the suffix
`syscalls` sets the level to syscalls, `syscalls-with-callstacks` sets it to
syscallsWithCallstacks, any other suffix fails, and a later `--wasi-trace=`
option after an accepted one fails. -/
theorem wasi_trace_level_is_the_suffix
    (parseAndSetFeature : CString → List CString → Option (List CString))
    (state : State) (arg : CString) (rest : List CString)
    (hstart : stringStartsWith arg "--wasi-trace=".toList = true) :
    arg = "--wasi-trace=".toList ++ arg.drop (strlen "--mount-root=".toList) ∧
    (state.wasiTraceLavel = .none →
      (arg = "--wasi-trace=syscalls".toList →
        parseArgument parseAndSetFeature state arg rest =
          .next { state with wasiTraceLavel := .syscalls } rest) ∧
      (arg = "--wasi-trace=syscalls-with-callstacks".toList →
        parseArgument parseAndSetFeature state arg rest =
          .next { state with wasiTraceLavel := .syscallsWithCallstacks } rest) ∧
      (arg ≠ "--wasi-trace=syscalls".toList →
        arg ≠ "--wasi-trace=syscalls-with-callstacks".toList →
        parseArgument parseAndSetFeature state arg rest = .failed)) ∧
    (∀ (state2 state3 : State) (rest2 rest3 rest4 : List CString) (arg2 : CString),
      parseArgument parseAndSetFeature state arg rest = .next state2 rest2 →
      ParseReaches parseAndSetFeature state2 rest2 state3 rest3 →
      stringStartsWith arg2 "--wasi-trace=".toList = true →
      parseArgument parseAndSetFeature state3 arg2 rest4 = .failed) := by
  have h13 : strlen "--mount-root=".toList = 13 := by decide
  have hsplit : arg = "--wasi-trace=".toList ++ arg.drop 13 := by
    have htake : arg.take 13 = "--wasi-trace=".toList := by
      have h := hstart
      simp only [stringStartsWith, decide_eq_true_eq] at h
      exact h
    have := List.take_append_drop 13 arg
    rw [htake] at this
    exact this.symm
  have hrule := parseArgument_wasi_trace parseAndSetFeature state arg rest hstart
  refine ⟨by rw [h13]; exact hsplit, ?_, ?_⟩
  · intro hnone
    rw [hrule]
    simp only [hnone, ne_eq, not_true_eq_false, if_false]
    refine ⟨?_, ?_, ?_⟩
    · intro h; subst h; rfl
    · intro h; subst h; rfl
    · intro hn1 hn2
      have d1 : arg.drop 13 ≠ "syscalls".toList := by
        intro h; rw [h] at hsplit; exact hn1 hsplit
      have d2 : arg.drop 13 ≠ "syscalls-with-callstacks".toList := by
        intro h; rw [h] at hsplit; exact hn2 hsplit
      rw [if_neg d1, if_neg d2]
  · intro state2 state3 rest2 rest3 rest4 arg2 hstep hreach hstart2
    have hset : state2.wasiTraceLavel ≠ .none := by
      rw [hrule] at hstep
      repeat' split at hstep
      all_goals cases hstep
      all_goals simp
    have hsame := (parseReaches_keeps parseAndSetFeature state2 state3 rest2 rest3 hreach).2 hset
    rw [parseArgument_wasi_trace parseAndSetFeature state3 arg2 rest4 hstart2]
    rw [if_pos (by rw [hsame]; exact hset)]

/-- C19 at the argument `--wasi-trace=syscalls` in the initial state. -/
theorem wasi_trace_level_is_the_suffix_witness :
    stringStartsWith "--wasi-trace=syscalls".toList "--wasi-trace=".toList = true ∧
    parseArgument (fun _ spec => some spec) State.initial "--wasi-trace=syscalls".toList [] =
      .next { State.initial with wasiTraceLavel := .syscalls } [] :=
  ⟨by decide,
    ((wasi_trace_level_is_the_suffix (fun _ spec => some spec) State.initial
      "--wasi-trace=syscalls".toList [] (by decide)).2.1 rfl).1 rfl⟩

end WavmRun

namespace Runtime

/-! ## The frame of `setGlobalValue` -/

/-- C20 fails in the code: in a compartment with one context, two mutable
`i32` globals created one after the other are stored at offsets 0 and 4; the
second one holds 5; `setGlobalValue` on the first one stores all 16 bytes of
the value at offset 0, after which `getGlobalValue` of the second one reads 0
in the byte that held 5. -/
theorem setGlobalValue_overwrites_the_next_global :
    ∃ (C1 C2 C3 : Compartment) (g g2 : GlobalInstance) (previous before after : Value),
      createGlobal 3840 typeByteWidth (some (compartmentWith 0 [some ⟨0⟩])) ⟨.i32, true⟩
        (valueOfBytes .i32 [1]) = .ok (some C1, some g) ∧
      createGlobal 3840 typeByteWidth (some C1) ⟨.i32, true⟩
        (valueOfBytes .i32 [5]) = .ok (some C2, some g2) ∧
      g.mutableDataOffset = 0 ∧ g2.mutableDataOffset = 4 ∧
      getGlobalValue 3840 C2 (some ⟨0⟩) g2 = .ok before ∧
      setGlobalValue 3840 C2 (some ⟨0⟩) g (valueOfBytes .i32 [9]) = .ok (previous, C3) ∧
      getGlobalValue 3840 C3 (some ⟨0⟩) g2 = .ok after ∧
      before.payload.bytes ⟨0, by decide⟩ = 5 ∧
      after.payload.bytes ⟨0, by decide⟩ = 0 ∧
      ¬ after.sameOnWidth (typeByteWidth .i32) before := by
  refine ⟨_, _, _, _, _, _, _, _, rfl, rfl, rfl, rfl, rfl, rfl, rfl, ?_, ?_, ?_⟩
  · decide
  · decide
  · intro h
    have h0 := h.2 ⟨0, by decide⟩ (by decide)
    revert h0
    decide

end Runtime

namespace Runtime

/-! ## Global creation after a context was finalized -/

/-- C21 fails in the code: in a compartment whose only context was created and
then finalized, the context vector is `[nullptr]`, a state reached by context
operations alone, and `createGlobal` of a mutable `i32` global passes the arena
check and dereferences that null slot in its loop over the contexts. -/
theorem createGlobal_dereferences_finalized_slot :
    ∃ (ctx : Context) (C1 : Compartment),
      createContext (compartmentWith 0 []) (some zeroPage) = .ok (ctx, C1) ∧
      (ctx.finalize C1).contexts = [none] ∧
      ContextSteps (compartmentWith 0 []) (ctx.finalize C1) ∧
      add32 (alignedDataOffset (ctx.finalize C1).numGlobalBytes (u32 (typeByteWidth .i32)))
        (u32 (typeByteWidth .i32)) < 3840 ∧
      createGlobal 3840 typeByteWidth (some (ctx.finalize C1)) ⟨.i32, true⟩
        (valueOfBytes .i32 [7]) = .nullDereference := by
  refine ⟨_, _, rfl, rfl, ?_, by decide, rfl⟩
  exact Relation.ReflTransGen.tail
    (Relation.ReflTransGen.single (ContextStep.create _ _ zeroPage _ rfl))
    (ContextStep.finalize _ ⟨0⟩ (by decide))

end Runtime

namespace Runtime

/-! ## The allocations of a sequence of globals -/

/-- A call of `createGlobal` on a compartment that returns: it made an
immutable global and left the compartment as it was, or it returned null and
left the compartment as it was, or it made a mutable global. -/
theorem createGlobal_ok_cases (maxGlobalBytes : Nat) (getTypeByteWidth : ValueType → Nat)
    (D E : Compartment) (type : GlobalType) (initialValue : Value)
    (result : Option GlobalInstance)
    (hok : createGlobal maxGlobalBytes getTypeByteWidth (some D) type initialValue
      = .ok (some E, result)) :
    (type.isMutable = false ∧ E = D ∧
      result = some ⟨type, u32 (2 ^ 32 - 1), initialValue.payload⟩) ∨
    (type.isMutable = true ∧ E = D ∧ result = none) ∨
    (type.isMutable = true ∧ ∃ g, result = some g) := by
  unfold createGlobal at hok
  split at hok
  · cases hok
  · split at hok
    · cases hok
    · rename_i C hmut hC
      cases hC
      simp only at hok
      split at hok
      · cases hok
        exact Or.inr (Or.inl ⟨hmut, rfl, rfl⟩)
      · split at hok
        · cases hok
        · cases hok
          exact Or.inr (Or.inr ⟨hmut, _, rfl⟩)
    · rename_i hmut
      cases hok
      exact Or.inl ⟨hmut, rfl, rfl⟩

/-- The aligned offset is the least multiple of the width at or after the
mark. -/
theorem alignedDataOffset_least (n k m : Nat) (h : n + 2 * 2 ^ k ≤ 2 ^ 32)
    (hm : m % 2 ^ k = 0) (hn : n ≤ m) : alignedDataOffset n (2 ^ k) ≤ m := by
  obtain ⟨_, hmod, _, hlt, _⟩ := alignedDataOffset_facts n k h
  by_contra hcon
  have hgt : m < alignedDataOffset n (2 ^ k) := by omega
  have hdvd : 2 ^ k ∣ alignedDataOffset n (2 ^ k) - m :=
    Nat.dvd_sub' (Nat.dvd_of_mod_eq_zero hmod) (Nat.dvd_of_mod_eq_zero hm)
  have := Nat.le_of_dvd (by omega) hdvd
  omega

/-- What a successful `createGlobal` of a mutable global does to the mark,
when widths are powers of two and the arena is small enough for the 32-bit
arithmetic not to wrap. -/
theorem createGlobal_mutable_step (maxGlobalBytes : Nat) (getTypeByteWidth : ValueType → Nat)
    (D E : Compartment) (type : GlobalType) (initialValue : Value) (g : GlobalInstance)
    (hwidth : ∀ t, ∃ k, getTypeByteWidth t = 2 ^ k)
    (harena : ∀ t, maxGlobalBytes + 2 * getTypeByteWidth t ≤ 2 ^ 32)
    (hbound : D.numGlobalBytes ≤ maxGlobalBytes)
    (hmut : type.isMutable = true)
    (hok : createGlobal maxGlobalBytes getTypeByteWidth (some D) type initialValue
      = .ok (some E, some g)) :
    g.type = type ∧
    g.mutableDataOffset % getTypeByteWidth type.valueType = 0 ∧
    D.numGlobalBytes ≤ g.mutableDataOffset ∧
    (∀ m, m % getTypeByteWidth type.valueType = 0 → D.numGlobalBytes ≤ m →
      g.mutableDataOffset ≤ m) ∧
    E.numGlobalBytes = g.mutableDataOffset + getTypeByteWidth type.valueType ∧
    E.numGlobalBytes ≤ maxGlobalBytes := by
  obtain ⟨_, hlt, hg, hnum, _, _, _⟩ :=
    createGlobal_mutable_inv maxGlobalBytes getTypeByteWidth D E type initialValue g hmut hok
  obtain ⟨k, hk⟩ := hwidth type.valueType
  have ha := harena type.valueType
  rw [hk] at ha
  have hfit : D.numGlobalBytes + 2 * 2 ^ k ≤ 2 ^ 32 := by omega
  obtain ⟨hu, hmod, hle, _, hadd⟩ := alignedDataOffset_facts D.numGlobalBytes k hfit
  have hleast := alignedDataOffset_least D.numGlobalBytes k
  rw [hk, hu] at hlt hnum hg
  rw [hadd] at hlt hnum
  subst hg
  rw [hk]
  exact ⟨rfl, hmod, hle, fun m hm hn => hleast m hfit hm hn, hnum, by omega⟩

/-- Along a sequence of successful calls from an empty arena the mark stays
within the arena, every mutable global ends at or below the mark, and a
mutable global ends at or before the start of every mutable global made after
it. -/
theorem createsGlobals_inv (maxGlobalBytes : Nat) (getTypeByteWidth : ValueType → Nat)
    (C D : Compartment) (globals : List GlobalInstance)
    (hwidth : ∀ t, ∃ k, getTypeByteWidth t = 2 ^ k)
    (harena : ∀ t, maxGlobalBytes + 2 * getTypeByteWidth t ≤ 2 ^ 32)
    (hstart : C.numGlobalBytes = 0)
    (hsteps : CreatesGlobals maxGlobalBytes getTypeByteWidth C globals D) :
    D.numGlobalBytes ≤ maxGlobalBytes ∧
    C.numGlobalBytes ≤ D.numGlobalBytes ∧
    (∀ g ∈ globals, g.type.isMutable = true →
      g.mutableDataOffset + getTypeByteWidth g.type.valueType ≤ D.numGlobalBytes) ∧
    globals.Pairwise (fun g h => g.type.isMutable = true → h.type.isMutable = true →
      g.mutableDataOffset + getTypeByteWidth g.type.valueType ≤ h.mutableDataOffset) := by
  induction hsteps with
  | none => exact ⟨by omega, Nat.le_refl _, by simp, List.Pairwise.nil⟩
  | call D E globals type initialValue global _ hok ih =>
    obtain ⟨hbound, hmono, hbelow, hpair⟩ := ih
    rcases createGlobal_ok_cases maxGlobalBytes getTypeByteWidth D E type initialValue _ hok
      with ⟨hmut, hE, hres⟩ | ⟨_, _, hres⟩ | ⟨hmut, _⟩
    · subst hE
      have hg : global.type.isMutable = false := by
        cases hres
        exact hmut
      refine ⟨hbound, hmono, ?_, ?_⟩
      · intro g hmem hgm
        rcases List.mem_append.mp hmem with h | h
        · exact hbelow g h hgm
        · rw [List.mem_singleton.mp h, hg] at hgm
          cases hgm
      · rw [List.pairwise_append]
        refine ⟨hpair, List.pairwise_singleton _ _, ?_⟩
        intro a _ b hb _ hbm
        rw [List.mem_singleton.mp hb, hg] at hbm
        cases hbm
    · cases hres
    · obtain ⟨htype, _, hle, _, hnum, hE⟩ :=
        createGlobal_mutable_step maxGlobalBytes getTypeByteWidth D E type initialValue global
          hwidth harena hbound hmut hok
      refine ⟨hE, by omega, ?_, ?_⟩
      · intro g hmem hgm
        rcases List.mem_append.mp hmem with h | h
        · have := hbelow g h hgm
          omega
        · rw [List.mem_singleton.mp h, htype, hnum]
      · rw [List.pairwise_append]
        refine ⟨hpair, List.pairwise_singleton _ _, ?_⟩
        intro a ha b hb ham _
        rw [List.mem_singleton.mp hb]
        have := hbelow a ha ham
        omega

end Runtime

namespace Runtime

/-- C22: after any sequence of successful `createGlobal` calls on a compartment
that starts with `numGlobalBytes = 0`, the byte ranges of the mutable globals
are pairwise disjoint and lie below `numGlobalBytes`; a further call that
returns never decreases `numGlobalBytes`; when it makes a mutable global, the
offset is the least multiple of the width at or after the previous
`numGlobalBytes` and the new `numGlobalBytes` is the end of that range; when it
returns null the compartment, with `numGlobalBytes` and all global data, is as
before.  Widths are powers of two and the arena is small enough for the 32-bit
arithmetic of the allocation not to wrap. -/
theorem createGlobal_ranges_disjoint_and_least
    (maxGlobalBytes : Nat) (getTypeByteWidth : ValueType → Nat) (C D E : Compartment)
    (globals : List GlobalInstance) (type : GlobalType) (initialValue : Value)
    (result : Option GlobalInstance)
    (hwidth : ∀ t, ∃ k, getTypeByteWidth t = 2 ^ k)
    (harena : ∀ t, maxGlobalBytes + 2 * getTypeByteWidth t ≤ 2 ^ 32)
    (hstart : C.numGlobalBytes = 0)
    (hsteps : CreatesGlobals maxGlobalBytes getTypeByteWidth C globals D)
    (hnext : createGlobal maxGlobalBytes getTypeByteWidth (some D) type initialValue
      = .ok (some E, result)) :
    globals.Pairwise (fun g h => g.type.isMutable = true → h.type.isMutable = true →
      ∀ a, ¬ (g.occupies getTypeByteWidth a ∧ h.occupies getTypeByteWidth a)) ∧
    (∀ g ∈ globals, g.type.isMutable = true →
      ∀ a, g.occupies getTypeByteWidth a → a < D.numGlobalBytes) ∧
    D.numGlobalBytes ≤ E.numGlobalBytes ∧
    (∀ g, result = some g → type.isMutable = true →
      g.mutableDataOffset % getTypeByteWidth type.valueType = 0 ∧
      D.numGlobalBytes ≤ g.mutableDataOffset ∧
      (∀ m, m % getTypeByteWidth type.valueType = 0 → D.numGlobalBytes ≤ m →
        g.mutableDataOffset ≤ m) ∧
      E.numGlobalBytes = g.mutableDataOffset + getTypeByteWidth type.valueType) ∧
    (result = none → E = D) := by
  obtain ⟨hbound, _, hbelow, hpair⟩ :=
    createsGlobals_inv maxGlobalBytes getTypeByteWidth C D globals hwidth harena hstart hsteps
  have hstep : ∀ g, result = some g → type.isMutable = true →
      g.mutableDataOffset % getTypeByteWidth type.valueType = 0 ∧
      D.numGlobalBytes ≤ g.mutableDataOffset ∧
      (∀ m, m % getTypeByteWidth type.valueType = 0 → D.numGlobalBytes ≤ m →
        g.mutableDataOffset ≤ m) ∧
      E.numGlobalBytes = g.mutableDataOffset + getTypeByteWidth type.valueType := by
    intro g hres hmut
    subst hres
    obtain ⟨_, h1, h2, h3, h4, _⟩ :=
      createGlobal_mutable_step maxGlobalBytes getTypeByteWidth D E type initialValue g
        hwidth harena hbound hmut hnext
    exact ⟨h1, h2, h3, h4⟩
  refine ⟨?_, ?_, ?_, hstep, ?_⟩
  · refine hpair.imp ?_
    intro g h hgh hg hh a ha
    have := hgh hg hh
    unfold GlobalInstance.occupies at ha
    omega
  · intro g hmem hg a ha
    have := hbelow g hmem hg
    unfold GlobalInstance.occupies at ha
    omega
  · rcases createGlobal_ok_cases maxGlobalBytes getTypeByteWidth D E type initialValue result
      hnext with ⟨_, hE, _⟩ | ⟨_, hE, _⟩ | ⟨hmut, g, hres⟩
    · rw [hE]
    · rw [hE]
    · obtain ⟨_, h2, _, h4⟩ := hstep g hres hmut
      omega
  · intro hnone
    rcases createGlobal_ok_cases maxGlobalBytes getTypeByteWidth D E type initialValue result
      hnext with ⟨_, _, hres⟩ | ⟨_, hE, _⟩ | ⟨_, g, hres⟩
    · rw [hnone] at hres; cases hres
    · exact hE
    · rw [hnone] at hres; cases hres

/-- C22, at a concrete input: in an arena of 3840 bytes an `i32` global is made
at offset 0, which moves the mark to 4; the `i64` global made next is placed at
offset 8, the least multiple of 8 at or after 4, and moves the mark to 16. -/
theorem createGlobal_ranges_disjoint_and_least_witness :
    (8 : Nat) % typeByteWidth .i64 = 0 ∧ (4 : Nat) ≤ 8 ∧
    (∀ m, m % typeByteWidth .i64 = 0 → 4 ≤ m → 8 ≤ m) ∧
    (16 : Nat) = 8 + typeByteWidth .i64 :=
  (createGlobal_ranges_disjoint_and_least 3840 typeByteWidth (compartmentWith 0 [])
    ⟨4, memcpy zeroMemory 0 (valueOfBytes .i32 [1]).payload.toMemory 4, [], fun _ => zeroPage⟩
    ⟨16, memcpy (memcpy zeroMemory 0 (valueOfBytes .i32 [1]).payload.toMemory 4) 8
      (valueOfBytes .i64 [7]).payload.toMemory 8, [], fun _ => zeroPage⟩
    [⟨⟨.i32, true⟩, 0, (valueOfBytes .i32 [1]).payload⟩]
    ⟨.i64, true⟩ (valueOfBytes .i64 [7])
    (some ⟨⟨.i64, true⟩, 8, (valueOfBytes .i64 [7]).payload⟩)
    (fun t => by cases t <;> first | exact ⟨2, rfl⟩ | exact ⟨3, rfl⟩ | exact ⟨4, rfl⟩)
    (fun t => by cases t <;> decide)
    rfl
    (CreatesGlobals.call (compartmentWith 0 []) (compartmentWith 0 []) _ [] ⟨.i32, true⟩
      (valueOfBytes .i32 [1]) _ (CreatesGlobals.none _) rfl)
    rfl).2.2.2.1 ⟨⟨.i64, true⟩, 8, (valueOfBytes .i64 [7]).payload⟩ rfl rfl

end Runtime
